import Mathlib

/-!
# trans-file: one-time, time-limited file links over GridFS

A verification development for `index.js`: the catalog (`uploads.files`), the chunk
store (`uploads.chunks`), the sweep `cleanupExpiredFiles`, the upload handler
`POST /upload` and the download handler `GET /d/:id`.

Modelling conventions.
* Times are JavaScript millisecond timestamps (`Date.now()`), integers.
* A store operation (`findOne`, `find`, `updateOne`, `gfs.delete`, a GridFS read) is
  atomic; a handler is cut into phases at its `await`s.
* What the environment decides is an explicit input: the clock readings, whether a
  `gfs.delete` rejects, whether the download stream errors and after how many chunks,
  how the ObjectId constructor reads a string, and when the deletes of the
  fire-and-forget sweep reach the store.
* `res.setHeader` is Node's: it throws on a value that holds a character outside TAB,
  0x20-0x7e and 0x80-0xff.
* Every handler returns its response, the store afterwards and the log of the store
  operations it issued.
-/

namespace TransFile

/-! ## Data model -/

abbrev Byte := Fin 256

abbrev ObjectId := Nat

/-- Retention constant of `index.js` line 12. -/
def LINK_EXPIRY_MINUTES : Int := 20

/-- Chunk size passed to `openUploadStream` (line 69). -/
def chunkSizeBytes : Nat := 1024 * 1024

/-- The `metadata` sub-document written at upload (lines 70-75). -/
structure Metadata where
  originalname : String
  contentType : String
  createdAt : Int
  accessCount : Nat
deriving DecidableEq

/-- A document of `uploads.files`. -/
structure FileDoc where
  _id : ObjectId
  length : Nat
  chunkSize : Nat
  uploadDate : Int
  filename : String
  metadata : Metadata
deriving DecidableEq

/-- A document of `uploads.chunks`. -/
structure Chunk where
  files_id : ObjectId
  n : Nat
  data : List Byte
deriving DecidableEq

/-- The database behind `conn.db`: the two GridFS collections of bucket `uploads`. -/
structure Db where
  files : List FileDoc
  chunks : List Chunk
deriving DecidableEq

/-- Store operations, as they are issued to the database. -/
inductive StoreOp where
  | find (cutoff : Int)
  | findOne (id : ObjectId)
  | updateOne (id : ObjectId)
  | delete (id : ObjectId)
  | openUploadStream (id : ObjectId)
  | openDownloadStream (id : ObjectId)
deriving DecidableEq

/-- What the client receives. `send` is `res.status(s).send(body)` (headers set earlier
stay on the response); `linkPage` is the upload page carrying the link `/d/<fileId>`;
`stream` is a piped download, status 200 with its two headers and the bytes that reached
the client, `failed` telling that the stream emitted `error` after them and the body was
cut there; `unhandled` is a handler whose promise rejected before anything was sent. -/
inductive Response where
  | send (status : Nat) (body : String)
  | linkPage (fileId : String)
  | stream (contentType contentDisposition : String) (bytes : List Byte) (failed : Bool)
  | unhandled
deriving DecidableEq

/-- A download went out: headers were set, the stream was opened and piped. -/
def Response.admitted : Response → Bool
  | .stream _ _ _ _ => true
  | _ => false

/-- Payload bytes a response carries. -/
def Response.payload : Response → List Byte
  | .stream _ _ bytes _ => bytes
  | _ => []

/-- Result of one handler run. -/
structure Outcome where
  response : Response
  db : Db
  ops : List StoreOp
deriving DecidableEq

/-- The request passed the redemption gate: the increment of lines 237-240 was issued. -/
def Outcome.passedGate (o : Outcome) : Bool :=
  o.ops.any (fun op => match op with
    | .updateOne _ => true
    | _ => false)

/-! ## Store primitives -/

/-- Query `findOne({ _id })` on `uploads.files`. -/
def findOne (id : ObjectId) (db : Db) : Option FileDoc :=
  db.files.find? (fun d => decide (d._id = id))

/-- Query `find({ 'metadata.createdAt': { $lt: cutoff } }).toArray()` (lines 44-46). -/
def findOlder (cutoff : Int) (db : Db) : List FileDoc :=
  db.files.filter (fun d => decide (d.metadata.createdAt < cutoff))

/-- Effect of `{ $inc: { "metadata.accessCount": 1 } }` on one document. -/
def FileDoc.bump (d : FileDoc) : FileDoc :=
  { d with metadata := { d.metadata with accessCount := d.metadata.accessCount + 1 } }

/-- Update `updateOne({ _id }, { $inc: ... })`: the first matching document is bumped. -/
def updateOneInc (id : ObjectId) : List FileDoc → List FileDoc
  | [] => []
  | d :: ds => if d._id = id then d.bump :: ds else d :: updateOneInc id ds

/-- Removal `deleteOne({ _id })` on `uploads.files`: the first match is removed. -/
def deleteOneFile (id : ObjectId) : List FileDoc → List FileDoc
  | [] => []
  | d :: ds => if d._id = id then ds else d :: deleteOneFile id ds

/-- A successful `gfs.delete(id)`: the files document and every chunk of the id go. -/
def gfsDelete (id : ObjectId) (db : Db) : Db :=
  { files := deleteOneFile id db.files
    chunks := db.chunks.filter (fun c => decide (c.files_id ≠ id)) }

/-- A `gfs.delete(id)` that may reject: a rejected delete leaves the store as it was. -/
def tryDelete (fails : Bool) (id : ObjectId) (db : Db) : Db :=
  if fails then db else gfsDelete id db

/-- Chunking of a buffer into consecutive blocks of `size` bytes; `fuel` bounds the
number of blocks. -/
def splitAux (size : Nat) : Nat → List Byte → List (List Byte)
  | 0, _ => []
  | fuel + 1, bs => if bs = [] then [] else bs.take size :: splitAux size fuel (bs.drop size)

/-- Blocks of a buffer: at most one block per byte is needed. -/
def splitChunks (size : Nat) (bs : List Byte) : List (List Byte) :=
  splitAux size bs.length bs

/-- Chunk documents for consecutive blocks, numbered from `start`. -/
def mkChunks (id : ObjectId) : Nat → List (List Byte) → List Chunk
  | _, [] => []
  | start, b :: bs => { files_id := id, n := start, data := b } :: mkChunks id (start + 1) bs

/-- Effect of `openUploadStream(filename, { chunkSizeBytes, metadata })` followed by
`end(buffer)`: the chunks are written in sequence order, then the files document. -/
def gridfsUpload (id : ObjectId) (filename : String) (size : Nat) (uploadDate : Int)
    (metadata : Metadata) (buffer : List Byte) (db : Db) : Db :=
  { files := db.files ++ [{ _id := id, length := buffer.length, chunkSize := size,
                            uploadDate := uploadDate, filename := filename,
                            metadata := metadata }]
    chunks := db.chunks ++ mkChunks id 0 (splitChunks size buffer) }

/-- Chunks stored under an id, in store order (`find({ files_id })`). -/
def Db.chunksOf (id : ObjectId) (db : Db) : List Chunk :=
  db.chunks.filter (fun c => decide (c.files_id = id))

/-- Chunks of one file in sequence order (`find({ files_id }).sort({ n: 1 })`). -/
def orderedChunks (id : ObjectId) (db : Db) : List Chunk :=
  (db.chunksOf id).insertionSort (fun a b => a.n ≤ b.n)

/-- Read side of `openDownloadStream(id)`: without a files document the stream errors at
once, otherwise it yields the chunk data, one chunk at a time, by sequence number. -/
def openDownloadStream (id : ObjectId) (db : Db) : Option (List (List Byte)) :=
  match findOne id db with
  | none => none
  | some _ => some ((orderedChunks id db).map (fun c => c.data))

/-- Node's `checkInvalidHeaderChar`: a header value may hold TAB, 0x20-0x7e, 0x80-0xff. -/
def legalHeaderChar (c : Char) : Bool :=
  c.toNat = 9 || (32 ≤ c.toNat && c.toNat ≤ 126) || (128 ≤ c.toNat && c.toNat ≤ 255)

/-- A value `res.setHeader` accepts; on any other value it throws `ERR_INVALID_CHAR`. -/
def legalHeaderValue (s : String) : Bool :=
  s.data.all legalHeaderChar

/-! ## The sweep -/

/-- The loop of lines 48-55: one `gfs.delete` per listed file, each inside `try/catch`,
so a rejected delete is logged and the loop goes on. `fails` tells which deletes reject. -/
def sweepDeletes (fails : ObjectId → Bool) : List FileDoc → Db → Db
  | [], db => db
  | f :: fs, db => sweepDeletes fails fs (tryDelete (fails f._id) f._id db)

/-- Store operations the loop issues. -/
def sweepOps (oldFiles : List FileDoc) : List StoreOp :=
  oldFiles.map (fun f => StoreOp.delete f._id)

/-- Function `cleanupExpiredFiles` (lines 39-56), run to completion at clock reading `now`.
`connected` is the guard `if (!conn.db) return`. -/
def cleanupExpiredFiles (connected : Bool) (now : Int) (fails : ObjectId → Bool) (db : Db) :
    Db × List StoreOp :=
  if !connected then (db, [])
  else
    let expiryTime := now - LINK_EXPIRY_MINUTES * 60 * 1000
    let oldFiles := findOlder expiryTime db
    (sweepDeletes fails oldFiles db, StoreOp.find expiryTime :: sweepOps oldFiles)

/-! ## Download handler `GET /d/:id` -/

/-- What the environment decides during one download request.
* `sweepFirst`: the deletes of the sweep started at line 215 reach the store before the
  handler's `findOne` (otherwise after the handler's own operations);
* `sweepDeleteFails`: which of the sweep's deletes reject;
* `deleteFails`: the handler's own `gfs.delete` (line 233 or line 254) rejects;
* `streamErrorAt`: `some k` when the download stream emits `error` after it has
  delivered `k` chunks (`some 0`: before the first chunk). -/
structure Oracle where
  sweepFirst : Bool
  sweepDeleteFails : ObjectId → Bool
  deleteFails : Bool
  streamErrorAt : Option Nat

/-- One download request: the `:id` path parameter, the clock read by the sweep
(line 42), the clock read by the handler (line 227) and the environment. -/
structure Request where
  id : String
  sweepNow : Int
  now : Int
  env : Oracle

/-- Lines 217-225: build the ObjectId, look the document up. -/
def lookupPhase (parse : String → Option ObjectId) (id : String) (db : Db) :
    Except Response (ObjectId × FileDoc) × List StoreOp :=
  match parse id with
  | none => (.error (.send 200 "Invalid download link."), [])
  | some objectId =>
    match findOne objectId db with
    | none => (.error (.send 200 "Link is invalid or expired."), [.findOne objectId])
    | some fileDoc => (.ok (objectId, fileDoc), [.findOne objectId])

/-- Lines 229-230: the gate. -/
def expired (fileDoc : FileDoc) (now : Int) : Bool :=
  decide (fileDoc.metadata.accessCount ≥ 1) ||
    decide (now - fileDoc.metadata.createdAt > LINK_EXPIRY_MINUTES * 60 * 1000)

/-- Lines 227-240: reject with a delete (not inside `try/catch`), or increment. -/
def gatePhase (rq : Request) (objectId : ObjectId) (fileDoc : FileDoc) (db : Db) :
    Except Response Unit × Db × List StoreOp :=
  if expired fileDoc rq.now then
    if rq.env.deleteFails then (.error .unhandled, db, [.delete fileDoc._id])
    else (.error (.send 200 "The link has expired."), gfsDelete fileDoc._id db,
          [.delete fileDoc._id])
  else (.ok (), { db with files := updateOneInc objectId db.files }, [.updateOne objectId])

/-- The `error` handler of lines 247-250, `res.status(500).send(...)`: it reaches the
client only while no byte has been piped; once bytes are out, the status line and the
headers are out too, and the client is left with the 200 response cut after them. -/
def onStreamError (contentType disposition : String) (delivered : List Byte) : Response :=
  if delivered = [] then .send 500 "Error downloading file."
  else .stream contentType disposition delivered true

/-- Lines 242-250 and 261: the two `res.setHeader` calls, which throw on an illegal value
(the handler's promise rejects: the increment is done, nothing is sent, no stream is
opened), then open the stream and pipe it chunk by chunk. -/
def streamPhase (rq : Request) (objectId : ObjectId) (fileDoc : FileDoc) (db : Db) :
    Except Response Response × List StoreOp :=
  let contentType := fileDoc.metadata.contentType
  let disposition := "attachment; filename=\"" ++ fileDoc.metadata.originalname ++ "\""
  if legalHeaderValue contentType && legalHeaderValue disposition then
    match openDownloadStream objectId db, rq.env.streamErrorAt with
    | none, _ => (.error (onStreamError contentType disposition []),
                  [.openDownloadStream objectId])
    | some chunks, some k =>
      (.error (onStreamError contentType disposition (chunks.take k).flatten),
       [.openDownloadStream objectId])
    | some chunks, none =>
      (.ok (.stream contentType disposition chunks.flatten false),
       [.openDownloadStream objectId])
  else (.error .unhandled, [])

/-- Lines 252-259: the `end` handler, a delete inside `try/catch`. -/
def endPhase (rq : Request) (objectId : ObjectId) (db : Db) : Db × List StoreOp :=
  (tryDelete rq.env.deleteFails objectId db, [.delete objectId])

/-- Lines 217-261 run without interruption. -/
def handlerBody (parse : String → Option ObjectId) (rq : Request) (db : Db) : Outcome :=
  match lookupPhase parse rq.id db with
  | (.error r, ops1) => ⟨r, db, ops1⟩
  | (.ok (objectId, fileDoc), ops1) =>
    match gatePhase rq objectId fileDoc db with
    | (.error r, db2, ops2) => ⟨r, db2, ops1 ++ ops2⟩
    | (.ok (), db2, ops2) =>
      match streamPhase rq objectId fileDoc db2 with
      | (.error r, ops3) => ⟨r, db2, ops1 ++ ops2 ++ ops3⟩
      | (.ok r, ops3) =>
        ⟨r, (endPhase rq objectId db2).1, ops1 ++ ops2 ++ ops3 ++ (endPhase rq objectId db2).2⟩

/-- The handler of lines 213-262. The sweep of line 215 is started first (the server
listens only once the connection is open, lines 26-37, so its guard passes) and its
query is issued at once; its loop, the one of `cleanupExpiredFiles`, lands before the
lookup or after the handler's own operations. -/
def getDownload (parse : String → Option ObjectId) (rq : Request) (db : Db) : Outcome :=
  let expiryTime := rq.sweepNow - LINK_EXPIRY_MINUTES * 60 * 1000
  let oldFiles := findOlder expiryTime db
  if rq.env.sweepFirst then
    let r := handlerBody parse rq (sweepDeletes rq.env.sweepDeleteFails oldFiles db)
    { response := r.response, db := r.db,
      ops := StoreOp.find expiryTime :: (sweepOps oldFiles ++ r.ops) }
  else
    let r := handlerBody parse rq db
    { response := r.response, db := sweepDeletes rq.env.sweepDeleteFails oldFiles r.db,
      ops := StoreOp.find expiryTime :: (r.ops ++ sweepOps oldFiles) }

/-! ## Upload handler `POST /upload` -/

/-- The `req.file` multer hands over. -/
structure UploadedFile where
  originalname : String
  mimetype : String
  buffer : List Byte

/-- The handler of lines 62-211. `newId` is the ObjectId the driver generates for the
upload stream, `toHex` its `toString()`; the page is reduced to the link it carries. -/
def postUpload (toHex : ObjectId → String) (sweepNow now : Int) (fails : ObjectId → Bool)
    (newId : ObjectId) (file : Option UploadedFile) (db : Db) : Outcome :=
  match file with
  | none => ⟨.send 400 "No file uploaded", db, []⟩
  | some f =>
    let swept := cleanupExpiredFiles true sweepNow fails db
    let metadata : Metadata :=
      { originalname := f.originalname, contentType := f.mimetype, createdAt := now,
        accessCount := 0 }
    ⟨.linkPage (toHex newId),
     gridfsUpload newId f.originalname chunkSizeBytes now metadata f.buffer swept.1,
     swept.2 ++ [.openUploadStream newId]⟩

/-- The store as the handler's lookup sees it: after the sweep's deletes when they land
first, untouched otherwise. -/
def seenStore (rq : Request) (db : Db) : Db :=
  if rq.env.sweepFirst then
    sweepDeletes rq.env.sweepDeleteFails
      (findOlder (rq.sweepNow - LINK_EXPIRY_MINUTES * 60 * 1000) db) db
  else db

/-- The document `postUpload` writes for a file. -/
def uploadedDoc (newId : ObjectId) (now : Int) (f : UploadedFile) : FileDoc :=
  { _id := newId, length := f.buffer.length, chunkSize := chunkSizeBytes, uploadDate := now,
    filename := f.originalname,
    metadata := { originalname := f.originalname, contentType := f.mimetype, createdAt := now,
                  accessCount := 0 } }

/-! ## Sequential runs -/

/-- Download requests handled one after the other, each to completion; every request
is listed with its outcome. -/
def runDownloads (parse : String → Option ObjectId) : List Request → Db → List (Request × Outcome)
  | [], _ => []
  | rq :: rqs, db =>
    (rq, getDownload parse rq db) :: runDownloads parse rqs (getDownload parse rq db).db

/-- The `_id` index of `uploads.files`: no two documents share an id. -/
def Db.uniqueIds (db : Db) : Prop :=
  (db.files.map (fun d => d._id)).Nodup

instance (db : Db) : Decidable db.uniqueIds :=
  inferInstanceAs (Decidable (db.files.map (fun d : FileDoc => d._id)).Nodup)

/-- No document and no chunk of the store carries the id. -/
def Db.absent (id : ObjectId) (db : Db) : Prop :=
  (∀ d ∈ db.files, d._id ≠ id) ∧ (∀ c ∈ db.chunks, c.files_id ≠ id)

instance (id : ObjectId) (db : Db) : Decidable (db.absent id) :=
  inferInstanceAs (Decidable ((∀ d ∈ db.files, d._id ≠ id) ∧ (∀ c ∈ db.chunks, c.files_id ≠ id)))

/-- Every stored document with the id has been redeemed at least once. -/
def Db.consumed (id : ObjectId) (db : Db) : Prop :=
  ∀ d ∈ db.files, d._id = id → 1 ≤ d.metadata.accessCount

/-! ## Interleaved runs -/

/-- Where a download handler stands between two of its `await`s. -/
inductive Pc where
  | start
  | found (objectId : ObjectId) (fileDoc : FileDoc)
  | passed (objectId : ObjectId) (fileDoc : FileDoc)
  | piped (objectId : ObjectId) (r : Response)
  | done (r : Response)

/-- A unit of scheduling: a sweep (before its query, or inside its loop) or the body
of a download handler. -/
inductive Task where
  | sweepStart (now : Int) (fails : ObjectId → Bool)
  | sweepLoop (fails : ObjectId → Bool) (oldFiles : List FileDoc)
  | body (rq : Request) (pc : Pc)

/-- One atomic move of a task: the code between two `await`s, built from the same
phases as `handlerBody` and the same loop body as `sweepDeletes`. -/
def Task.step (parse : String → Option ObjectId) : Task → Db → Task × Db
  | .sweepStart now fails, db =>
    (.sweepLoop fails (findOlder (now - LINK_EXPIRY_MINUTES * 60 * 1000) db), db)
  | .sweepLoop fails [], db => (.sweepLoop fails [], db)
  | .sweepLoop fails (f :: fs), db => (.sweepLoop fails fs, tryDelete (fails f._id) f._id db)
  | .body rq .start, db =>
    match lookupPhase parse rq.id db with
    | (.error r, _) => (.body rq (.done r), db)
    | (.ok (objectId, fileDoc), _) => (.body rq (.found objectId fileDoc), db)
  | .body rq (.found objectId fileDoc), db =>
    match gatePhase rq objectId fileDoc db with
    | (.error r, db2, _) => (.body rq (.done r), db2)
    | (.ok (), db2, _) => (.body rq (.passed objectId fileDoc), db2)
  | .body rq (.passed objectId fileDoc), db =>
    match streamPhase rq objectId fileDoc db with
    | (.error r, _) => (.body rq (.done r), db)
    | (.ok r, _) => (.body rq (.piped objectId r), db)
  | .body rq (.piped objectId r), db => (.body rq (.done r), (endPhase rq objectId db).1)
  | .body rq (.done r), db => (.body rq (.done r), db)

/-- The store and the tasks in flight. -/
structure System where
  db : Db
  tasks : List Task

/-- Tasks a list of download requests starts: for each request its sweep, then its body. -/
def spawn : List Request → List Task
  | [] => []
  | rq :: rqs => .sweepStart rq.sweepNow rq.env.sweepDeleteFails :: .body rq .start :: spawn rqs

/-- The scheduler lets task `i` make its next move. -/
def System.step (parse : String → Option ObjectId) (s : System) (i : Nat) : System :=
  match s.tasks[i]? with
  | none => s
  | some t => { db := (t.step parse s.db).2, tasks := s.tasks.set i (t.step parse s.db).1 }

/-- A schedule is the list of task indices in the order they move. -/
def System.run (parse : String → Option ObjectId) (s : System) (schedule : List Nat) : System :=
  schedule.foldl (System.step parse) s

/-- Response of a finished download task. -/
def Task.response : Task → Option Response
  | .body _ (.done r) => some r
  | _ => none

/-- Responses of the finished download tasks, in task order. -/
def System.responses (s : System) : List Response :=
  s.tasks.filterMap Task.response

/-! ## The server over time -/

/-- The store together with the wall clock. -/
structure Server where
  db : Db
  clock : Int

/-- What can happen to the server: time passes, or a request is handled (at the
current clock reading). No other event runs code: `index.js` sets no timer. -/
inductive Event where
  | advance (dt : Nat)
  | upload (newId : ObjectId) (file : Option UploadedFile) (fails : ObjectId → Bool)
  | download (id : String) (env : Oracle)

/-- Effect of one event. -/
def Server.step (parse : String → Option ObjectId) (toHex : ObjectId → String) (s : Server) :
    Event → Server
  | .advance dt => { s with clock := s.clock + dt }
  | .upload newId file fails =>
    { s with db := (postUpload toHex s.clock s.clock fails newId file s.db).db }
  | .download id env =>
    { s with db := (getDownload parse ⟨id, s.clock, s.clock, env⟩ s.db).db }

/-- Effect of a trace of events. -/
def Server.run (parse : String → Option ObjectId) (toHex : ObjectId → String) (s : Server)
    (evs : List Event) : Server :=
  evs.foldl (Server.step parse toHex) s

/-- A server that has just connected to an empty database, at clock reading 0. -/
def Server.init : Server := ⟨⟨[], []⟩, 0⟩

/-! ## Sample data -/

/-- A reader of ids that accepts two hex strings and rejects everything else. -/
def sampleParse (s : String) : Option ObjectId :=
  if s = "64b7f1a2c3d4e5f601234567" then some 1
  else if s = "64b7f1a2c3d4e5f601234568" then some 2
  else none

/-- The matching printer. -/
def sampleHex (i : ObjectId) : String :=
  if i = 1 then "64b7f1a2c3d4e5f601234567"
  else if i = 2 then "64b7f1a2c3d4e5f601234568"
  else ""

/-- An environment in which nothing fails and the sweep's deletes land last. -/
def calm : Oracle := ⟨false, fun _ => false, false, none⟩

/-- The same, with the sweep's deletes landing before the lookup. -/
def calmSweepFirst : Oracle := ⟨true, fun _ => false, false, none⟩

/-- An environment whose `gfs.delete` calls made by the handler reject. -/
def deleteRejects : Oracle := ⟨false, fun _ => false, true, none⟩

/-- An environment whose download stream errors before its first chunk. -/
def streamBreaks : Oracle := ⟨false, fun _ => false, false, some 0⟩

/-- A three-byte text file. -/
def sampleFile : UploadedFile := ⟨"a.txt", "text/plain", [104, 105, 10]⟩

/-- The document of `sampleFile` uploaded at `createdAt` under id 1, with a given count. -/
def sampleDoc (createdAt : Int) (accessCount : Nat) : FileDoc :=
  { _id := 1, length := 3, chunkSize := chunkSizeBytes, uploadDate := createdAt,
    filename := "a.txt",
    metadata := { originalname := "a.txt", contentType := "text/plain",
                  createdAt := createdAt, accessCount := accessCount } }

/-- A store holding that one file. -/
def sampleDb (createdAt : Int) (accessCount : Nat) : Db :=
  ⟨[sampleDoc createdAt accessCount], [⟨1, 0, [104, 105, 10]⟩]⟩

/-- The same three bytes under a name with a character beyond 0xff. -/
def kanjiFile : UploadedFile := ⟨"日.txt", "text/plain", [104, 105, 10]⟩

/-- The store after `kanjiFile` was uploaded at clock reading 0 under id 1, with a given
count. -/
def kanjiDb (accessCount : Nat) : Db :=
  ⟨[{ uploadedDoc 1 0 kanjiFile with
        metadata := { (uploadedDoc 1 0 kanjiFile).metadata with accessCount := accessCount } }],
   [⟨1, 0, [104, 105, 10]⟩]⟩

/-! ## Facts about the store primitives -/

theorem mem_deleteOneFile {id : ObjectId} {l : List FileDoc} {d : FileDoc}
    (h : d ∈ deleteOneFile id l) : d ∈ l := by
  induction l with
  | nil => simp [deleteOneFile] at h
  | cons a l ih =>
    simp only [deleteOneFile] at h
    split at h
    · exact List.mem_cons_of_mem _ h
    · rcases List.mem_cons.1 h with h | h
      · exact h ▸ List.mem_cons_self _ _
      · exact List.mem_cons_of_mem _ (ih h)

theorem deleteOneFile_ids_sublist (id : ObjectId) (l : List FileDoc) :
    ((deleteOneFile id l).map (fun d => d._id)).Sublist (l.map (fun d => d._id)) := by
  induction l with
  | nil => simp [deleteOneFile]
  | cons a l ih =>
    simp only [deleteOneFile]
    split
    · simp
    · simpa using ih

theorem deleteOneFile_eq_filter (id : ObjectId) (l : List FileDoc)
    (h : (l.map (fun d => d._id)).Nodup) :
    deleteOneFile id l = l.filter (fun d => decide (d._id ≠ id)) := by
  induction l with
  | nil => simp [deleteOneFile]
  | cons a l ih =>
    simp only [List.map_cons, List.nodup_cons, List.mem_map, not_exists, not_and] at h
    simp only [deleteOneFile]
    split
    · rename_i ha
      have : l.filter (fun d => decide (d._id ≠ id)) = l := by
        apply List.filter_eq_self.2
        intro d hd
        have := h.1 d hd
        simp only [ne_eq, decide_not, Bool.not_eq_eq_eq_not, Bool.not_true, decide_eq_false_iff_not]
        intro hid
        exact this (hid.trans ha.symm)
      simp only [ha, ne_eq, not_true_eq_false, decide_False, Bool.false_eq_true, not_false_eq_true,
        List.filter_cons_of_neg]
      exact this.symm
    · rename_i ha
      simp [ha, ih h.2]

theorem updateOneInc_ids (id : ObjectId) (l : List FileDoc) :
    (updateOneInc id l).map (fun d => d._id) = l.map (fun d => d._id) := by
  induction l with
  | nil => simp [updateOneInc]
  | cons a l ih =>
    simp only [updateOneInc]
    split
    · simp [FileDoc.bump]
    · simp [ih]

theorem mem_updateOneInc {id : ObjectId} {l : List FileDoc} {d : FileDoc}
    (h : d ∈ updateOneInc id l) :
    d ∈ l ∨ ∃ d0, l.find? (fun x => decide (x._id = id)) = some d0 ∧ d = d0.bump := by
  induction l with
  | nil => simp [updateOneInc] at h
  | cons a l ih =>
    simp only [updateOneInc] at h
    split at h
    · rename_i ha
      rcases List.mem_cons.1 h with h | h
      · right; exact ⟨a, by simp [List.find?, ha], h⟩
      · left; exact List.mem_cons_of_mem _ h
    · rename_i ha
      rcases List.mem_cons.1 h with h | h
      · left; exact h ▸ List.mem_cons_self _ _
      · rcases ih h with h | ⟨d0, h0, h1⟩
        · left; exact List.mem_cons_of_mem _ h
        · right; exact ⟨d0, by simp [List.find?, ha, h0], h1⟩

theorem updateOneInc_eq_map (id : ObjectId) (l : List FileDoc)
    (h : (l.map (fun d => d._id)).Nodup) :
    updateOneInc id l = l.map (fun d => if d._id = id then d.bump else d) := by
  induction l with
  | nil => simp [updateOneInc]
  | cons a l ih =>
    simp only [List.map_cons, List.nodup_cons, List.mem_map, not_exists, not_and] at h
    simp only [updateOneInc]
    split
    · rename_i ha
      have : l.map (fun d => if d._id = id then d.bump else d) = l := by
        conv_rhs => rw [← List.map_id l]
        apply List.map_congr_left
        intro d hd
        have := h.1 d hd
        have hne : ¬ d._id = id := fun hid => this (hid.trans ha.symm)
        simp [hne]
      simp [ha, this]
    · rename_i ha
      simp [ha, ih h.2]

theorem findOne_some {id : ObjectId} {db : Db} {d : FileDoc} (h : findOne id db = some d) :
    d ∈ db.files ∧ d._id = id := by
  unfold findOne at h
  exact ⟨List.mem_of_find?_eq_some h, by simpa using List.find?_some h⟩

theorem findOne_none {id : ObjectId} {db : Db} (h : findOne id db = none) :
    ∀ d ∈ db.files, d._id ≠ id := by
  unfold findOne at h
  simpa using h

theorem findOne_of_mem {db : Db} {d : FileDoc} (hu : db.uniqueIds) (hd : d ∈ db.files) :
    findOne d._id db = some d := by
  unfold findOne Db.uniqueIds at *
  generalize db.files = l at hu hd
  induction l with
  | nil => simp at hd
  | cons a l ih =>
    simp only [List.map_cons, List.nodup_cons, List.mem_map, not_exists, not_and] at hu
    rcases List.mem_cons.1 hd with h | h
    · subst h; simp [List.find?]
    · have hne : ¬ a._id = d._id := fun e => hu.1 d h e.symm
      simp [List.find?, hne, ih hu.2 h]

theorem tryDelete_files_sublist (b : Bool) (id : ObjectId) (db : Db) :
    ((tryDelete b id db).files.map (fun d => d._id)).Sublist (db.files.map (fun d => d._id)) := by
  unfold tryDelete
  split
  · exact List.Sublist.refl _
  · exact deleteOneFile_ids_sublist id db.files

theorem tryDelete_uniqueIds {b : Bool} {id : ObjectId} {db : Db} (hu : db.uniqueIds) :
    (tryDelete b id db).uniqueIds :=
  List.Nodup.sublist (tryDelete_files_sublist b id db) hu

theorem tryDelete_files (b : Bool) (id : ObjectId) (db : Db) (hu : db.uniqueIds) :
    (tryDelete b id db).files = db.files.filter (fun d => !(decide (d._id = id) && !b)) := by
  unfold tryDelete
  cases b
  · simp [gfsDelete, deleteOneFile_eq_filter id db.files hu]
  · simp

theorem tryDelete_chunks (b : Bool) (id : ObjectId) (db : Db) :
    (tryDelete b id db).chunks = db.chunks.filter (fun c => !(decide (c.files_id = id) && !b)) := by
  unfold tryDelete
  cases b
  · simp [gfsDelete]
  · simp

theorem sweepDeletes_ids_sublist (fails : ObjectId → Bool) (L : List FileDoc) (db : Db) :
    ((sweepDeletes fails L db).files.map (fun d => d._id)).Sublist
      (db.files.map (fun d => d._id)) := by
  induction L generalizing db with
  | nil => exact List.Sublist.refl _
  | cons f fs ih =>
    exact (ih (tryDelete (fails f._id) f._id db)).trans (tryDelete_files_sublist _ _ _)

theorem sweepDeletes_uniqueIds {fails : ObjectId → Bool} {L : List FileDoc} {db : Db}
    (hu : db.uniqueIds) : (sweepDeletes fails L db).uniqueIds :=
  List.Nodup.sublist (sweepDeletes_ids_sublist fails L db) hu

theorem sweepDeletes_files (fails : ObjectId → Bool) (L : List FileDoc) (db : Db)
    (hu : db.uniqueIds) :
    (sweepDeletes fails L db).files =
      db.files.filter (fun d => !(L.any (fun f => decide (f._id = d._id) && !fails f._id))) := by
  induction L generalizing db with
  | nil => simp [sweepDeletes]
  | cons f fs ih =>
    simp only [sweepDeletes]
    rw [ih _ (tryDelete_uniqueIds hu), tryDelete_files _ _ _ hu, List.filter_filter]
    apply List.filter_congr
    intro d _
    by_cases h : f._id = d._id
    · simp [h, Bool.and_comm]
    · have h2 : ¬ d._id = f._id := fun e => h e.symm
      simp [h, h2]

theorem sweepDeletes_chunks (fails : ObjectId → Bool) (L : List FileDoc) (db : Db) :
    (sweepDeletes fails L db).chunks =
      db.chunks.filter
        (fun c => !(L.any (fun f => decide (f._id = c.files_id) && !fails f._id))) := by
  induction L generalizing db with
  | nil => simp [sweepDeletes]
  | cons f fs ih =>
    simp only [sweepDeletes]
    rw [ih, tryDelete_chunks, List.filter_filter]
    apply List.filter_congr
    intro c _
    by_cases h : f._id = c.files_id
    · simp [h, Bool.and_comm]
    · have h2 : ¬ c.files_id = f._id := fun e => h e.symm
      simp [h, h2]

theorem mem_sweepDeletes_files {fails : ObjectId → Bool} {L : List FileDoc} {db : Db}
    {d : FileDoc} (h : d ∈ (sweepDeletes fails L db).files) : d ∈ db.files := by
  induction L generalizing db with
  | nil => exact h
  | cons f fs ih =>
    have h1 := ih h
    unfold tryDelete at h1
    split at h1
    · exact h1
    · exact mem_deleteOneFile h1

/-- Files the sweep does not list stay in the catalog. -/
theorem mem_sweepDeletes_of_not_listed {fails : ObjectId → Bool} {L : List FileDoc} {db : Db}
    {d : FileDoc} (hu : db.uniqueIds) (hd : d ∈ db.files) (hL : ∀ f ∈ L, f._id ≠ d._id) :
    d ∈ (sweepDeletes fails L db).files := by
  rw [sweepDeletes_files _ _ _ hu]
  refine List.mem_filter.2 ⟨hd, ?_⟩
  simp only [Bool.not_eq_true', List.any_eq_false, Bool.and_eq_true, decide_eq_true_eq,
    Bool.not_eq_true', not_and, Bool.not_eq_false]
  intro f hf e
  exact absurd e (hL f hf)

theorem chunksOf_sweepDeletes_of_not_listed {fails : ObjectId → Bool} {L : List FileDoc}
    {db : Db} {id : ObjectId} (hL : ∀ f ∈ L, f._id ≠ id) :
    (sweepDeletes fails L db).chunksOf id = db.chunksOf id := by
  unfold Db.chunksOf
  rw [sweepDeletes_chunks, List.filter_filter]
  apply List.filter_congr
  intro c _
  by_cases h : c.files_id = id
  · have : ∀ f ∈ L, ¬ f._id = c.files_id := fun f hf e => hL f hf (e.trans h)
    simp only [h, decide_True, Bool.true_and, Bool.not_eq_true', List.any_eq_false,
      Bool.and_eq_true, decide_eq_true_eq, not_and, Bool.not_eq_false]
    intro f hf e
    exact absurd e (hL f hf)
  · simp [h]

/-- A file the sweep lists and whose delete succeeds is gone from both collections. -/
theorem absent_sweepDeletes_of_listed {fails : ObjectId → Bool} {L : List FileDoc} {db : Db}
    {f : FileDoc} (hu : db.uniqueIds) (hf : f ∈ L) (hok : fails f._id = false) :
    (sweepDeletes fails L db).absent f._id := by
  constructor
  · intro d hd e
    rw [sweepDeletes_files _ _ _ hu] at hd
    have := (List.mem_filter.1 hd).2
    simp only [Bool.not_eq_true', List.any_eq_false, Bool.and_eq_true, decide_eq_true_eq,
      not_and, Bool.not_eq_false] at this
    have h1 := this f hf e.symm
    simp [hok] at h1
  · intro c hc e
    rw [sweepDeletes_chunks] at hc
    have := (List.mem_filter.1 hc).2
    simp only [Bool.not_eq_true', List.any_eq_false, Bool.and_eq_true, decide_eq_true_eq,
      not_and, Bool.not_eq_false] at this
    have h1 := this f hf e.symm
    simp [hok] at h1

theorem mem_findOlder {cutoff : Int} {db : Db} {d : FileDoc} :
    d ∈ findOlder cutoff db ↔ d ∈ db.files ∧ d.metadata.createdAt < cutoff := by
  simp [findOlder]

/-- With unique ids, a listed file with the id of a stored document is that document. -/
theorem eq_of_mem_of_id_eq {db : Db} {d f : FileDoc} (hu : db.uniqueIds) (hd : d ∈ db.files)
    (hf : f ∈ db.files) (e : f._id = d._id) : f = d := by
  have h1 := findOne_of_mem hu hd
  have h2 := findOne_of_mem hu hf
  rw [e, h1] at h2
  exact (Option.some.inj h2).symm

theorem cleanup_db (now : Int) (fails : ObjectId → Bool) (db : Db) :
    (cleanupExpiredFiles true now fails db).1 =
      sweepDeletes fails (findOlder (now - 1200000) db) db := by
  simp [cleanupExpiredFiles, LINK_EXPIRY_MINUTES]

theorem cleanup_uniqueIds {c : Bool} {now : Int} {fails : ObjectId → Bool} {db : Db}
    (hu : db.uniqueIds) : (cleanupExpiredFiles c now fails db).1.uniqueIds := by
  cases c
  · simpa [cleanupExpiredFiles] using hu
  · rw [cleanup_db]; exact sweepDeletes_uniqueIds hu

theorem cleanup_absent {c : Bool} {now : Int} {fails : ObjectId → Bool} {db : Db}
    {id : ObjectId} (h : db.absent id) : (cleanupExpiredFiles c now fails db).1.absent id := by
  cases c
  · simpa [cleanupExpiredFiles] using h
  · rw [cleanup_db]
    refine ⟨fun d hd => h.1 d (mem_sweepDeletes_files hd), fun ch hc => h.2 ch ?_⟩
    rw [sweepDeletes_chunks] at hc
    exact (List.mem_filter.1 hc).1

theorem postUpload_files (toHex : ObjectId → String) (sweepNow now : Int)
    (fails : ObjectId → Bool) (newId : ObjectId) (f : UploadedFile) (db : Db) :
    (postUpload toHex sweepNow now fails newId (some f) db).db.files =
      (cleanupExpiredFiles true sweepNow fails db).1.files ++ [uploadedDoc newId now f] := rfl

theorem postUpload_chunks (toHex : ObjectId → String) (sweepNow now : Int)
    (fails : ObjectId → Bool) (newId : ObjectId) (f : UploadedFile) (db : Db) :
    (postUpload toHex sweepNow now fails newId (some f) db).db.chunks =
      (cleanupExpiredFiles true sweepNow fails db).1.chunks ++
        mkChunks newId 0 (splitChunks chunkSizeBytes f.buffer) := rfl

theorem postUpload_uniqueIds {toHex : ObjectId → String} {sweepNow now : Int}
    {fails : ObjectId → Bool} {newId : ObjectId} {f : UploadedFile} {db : Db}
    (hu : db.uniqueIds) (hfresh : db.absent newId) :
    (postUpload toHex sweepNow now fails newId (some f) db).db.uniqueIds := by
  have h1 : (cleanupExpiredFiles true sweepNow fails db).1.uniqueIds := cleanup_uniqueIds hu
  have h2 := (@cleanup_absent true sweepNow fails _ _ hfresh).1
  unfold Db.uniqueIds at *
  rw [postUpload_files, List.map_append, List.nodup_append]
  refine ⟨h1, by simp, ?_⟩
  intro a ha hb
  simp only [List.map_cons, List.map_nil, List.mem_singleton] at hb
  obtain ⟨d, hd, rfl⟩ := List.mem_map.1 ha
  exact h2 d hd (by simpa [uploadedDoc] using hb)

/-- Claim C6. A sweep at clock reading `now` whose deletes all succeed removes exactly the
files past retention: every stored file with `now - createdAt > 20 min` is gone from the
catalog and from the chunk store, nothing past retention remains, and every file with
`now - createdAt ≤ 20 min` is still there with its document and its chunks unchanged.
In particular a file uploaded at `t = 0` is absent from both collections after a sweep
at `t = 21 min`. -/
theorem cleanupExpiredFiles_removes_exactly_expired (now : Int) (db : Db)
    (hu : db.uniqueIds) :
    (∀ d ∈ db.files, now - d.metadata.createdAt > 1200000 →
        (cleanupExpiredFiles true now (fun _ => false) db).1.absent d._id) ∧
    (∀ d ∈ (cleanupExpiredFiles true now (fun _ => false) db).1.files,
        now - d.metadata.createdAt ≤ 1200000) ∧
    (∀ d ∈ db.files, now - d.metadata.createdAt ≤ 1200000 →
        d ∈ (cleanupExpiredFiles true now (fun _ => false) db).1.files ∧
        (cleanupExpiredFiles true now (fun _ => false) db).1.chunksOf d._id =
          db.chunksOf d._id) ∧
    (∀ (toHex : ObjectId → String) (sweepNow : Int) (fails : ObjectId → Bool)
        (newId : ObjectId) (file : UploadedFile), db.absent newId →
        (cleanupExpiredFiles true (21 * 60 * 1000) (fun _ => false)
          (postUpload toHex sweepNow 0 fails newId (some file) db).db).1.absent newId) := by
  have key : ∀ (t : Int) (s : Db), s.uniqueIds → ∀ d ∈ s.files,
      t - d.metadata.createdAt > 1200000 →
        (cleanupExpiredFiles true t (fun _ => false) s).1.absent d._id := by
    intro t s hs d hd hold
    rw [cleanup_db]
    exact absent_sweepDeletes_of_listed hs (mem_findOlder.2 ⟨hd, by omega⟩) rfl
  refine ⟨key now db hu, ?_, ?_, ?_⟩
  · intro d hd
    by_contra hold
    have hd0 : d ∈ db.files := by
      rw [cleanup_db] at hd; exact mem_sweepDeletes_files hd
    exact (key now db hu d hd0 (by omega)).1 d hd rfl
  · intro d hd hfresh
    have hL : ∀ f ∈ findOlder (now - 1200000) db, f._id ≠ d._id := by
      intro f hf e
      have hf2 := mem_findOlder.1 hf
      have := eq_of_mem_of_id_eq hu hd hf2.1 e
      subst this
      omega
    rw [cleanup_db]
    exact ⟨mem_sweepDeletes_of_not_listed hu hd hL, chunksOf_sweepDeletes_of_not_listed hL⟩
  · intro toHex sweepNow fails newId file hfresh
    have hu2 : (postUpload toHex sweepNow 0 fails newId (some file) db).db.uniqueIds :=
      postUpload_uniqueIds hu hfresh
    have hmem : uploadedDoc newId 0 file ∈
        (postUpload toHex sweepNow 0 fails newId (some file) db).db.files := by
      rw [postUpload_files]; simp
    have := key (21 * 60 * 1000) _ hu2 _ hmem (by simp [uploadedDoc])
    simpa [uploadedDoc] using this

/-! ## Facts about the download handler -/

theorem handlerBody_malformed {parse : String → Option ObjectId} {rq : Request} {db : Db}
    (hp : parse rq.id = none) :
    handlerBody parse rq db = ⟨.send 200 "Invalid download link.", db, []⟩ := by
  simp [handlerBody, lookupPhase, hp]

theorem handlerBody_not_found {parse : String → Option ObjectId} {rq : Request} {db : Db}
    {oid : ObjectId} (hp : parse rq.id = some oid) (hf : findOne oid db = none) :
    handlerBody parse rq db =
      ⟨.send 200 "Link is invalid or expired.", db, [.findOne oid]⟩ := by
  simp [handlerBody, lookupPhase, hp, hf]

theorem handlerBody_expired {parse : String → Option ObjectId} {rq : Request} {db : Db}
    {oid : ObjectId} {doc : FileDoc} (hp : parse rq.id = some oid)
    (hf : findOne oid db = some doc) (he : expired doc rq.now = true) :
    handlerBody parse rq db =
      if rq.env.deleteFails then ⟨.unhandled, db, [.findOne oid, .delete doc._id]⟩
      else ⟨.send 200 "The link has expired.", gfsDelete doc._id db,
            [.findOne oid, .delete doc._id]⟩ := by
  cases hdel : rq.env.deleteFails <;>
    simp [handlerBody, lookupPhase, hp, hf, gatePhase, he, hdel]

theorem handlerBody_passed {parse : String → Option ObjectId} {rq : Request} {db : Db}
    {oid : ObjectId} {doc : FileDoc} (hp : parse rq.id = some oid)
    (hf : findOne oid db = some doc) (he : expired doc rq.now = false) :
    handlerBody parse rq db =
      match streamPhase rq oid doc { db with files := updateOneInc oid db.files } with
      | (.error r, ops3) =>
        ⟨r, { db with files := updateOneInc oid db.files },
          [.findOne oid] ++ [.updateOne oid] ++ ops3⟩
      | (.ok r, ops3) =>
        ⟨r, tryDelete rq.env.deleteFails oid { db with files := updateOneInc oid db.files },
          [.findOne oid] ++ [.updateOne oid] ++ ops3 ++ [.delete oid]⟩ := by
  simp only [handlerBody, lookupPhase, hp, hf, gatePhase, he, endPhase]
  simp

/-- Operations the stream phase issues: none when a header is refused, else the opening
of the download stream. -/
theorem streamPhase_ops (rq : Request) (oid : ObjectId) (doc : FileDoc) (db : Db) :
    (streamPhase rq oid doc db).2 =
      if legalHeaderValue doc.metadata.contentType &&
          legalHeaderValue ("attachment; filename=\"" ++ doc.metadata.originalname ++ "\"")
      then [.openDownloadStream oid] else [] := by
  unfold streamPhase
  simp only
  split
  · split <;> rfl
  · rfl

theorem updateOne_not_mem_streamPhase_ops (rq : Request) (oid : ObjectId) (doc : FileDoc)
    (db : Db) (x : ObjectId) : StoreOp.updateOne x ∉ (streamPhase rq oid doc db).2 := by
  rw [streamPhase_ops]
  split <;> simp

theorem delete_not_mem_streamPhase_ops (rq : Request) (oid : ObjectId) (doc : FileDoc)
    (db : Db) (x : ObjectId) : StoreOp.delete x ∉ (streamPhase rq oid doc db).2 := by
  rw [streamPhase_ops]
  split <;> simp

/-- A download goes out only for a document the lookup finds and the gate lets pass. -/
theorem handlerBody_admitted_imp (parse : String → Option ObjectId) (rq : Request) (db : Db)
    (h : (handlerBody parse rq db).response.admitted = true) :
    ∃ oid doc, parse rq.id = some oid ∧ findOne oid db = some doc ∧
      expired doc rq.now = false := by
  cases hp : parse rq.id with
  | none => simp [handlerBody_malformed hp, Response.admitted] at h
  | some oid =>
    cases hf : findOne oid db with
    | none => simp [handlerBody_not_found hp hf, Response.admitted] at h
    | some doc =>
      cases he : expired doc rq.now with
      | true =>
        rw [handlerBody_expired hp hf he] at h
        split at h <;> simp [Response.admitted] at h
      | false => exact ⟨oid, doc, rfl, hf, he⟩

theorem expired_eq_false_iff (doc : FileDoc) (now : Int) :
    expired doc now = false ↔
      doc.metadata.accessCount = 0 ∧ now - doc.metadata.createdAt ≤ 1200000 := by
  simp only [expired, LINK_EXPIRY_MINUTES, Bool.or_eq_false_iff, decide_eq_false_iff_not]
  constructor
  · rintro ⟨h1, h2⟩; exact ⟨by omega, by omega⟩
  · rintro ⟨h1, h2⟩; exact ⟨by omega, by omega⟩

theorem getDownload_response (parse : String → Option ObjectId) (rq : Request) (db : Db) :
    (getDownload parse rq db).response = (handlerBody parse rq (seenStore rq db)).response := by
  unfold getDownload seenStore
  split <;> rfl

/-- When the sweep's deletes land first, the lookup sees the store `cleanupExpiredFiles`
leaves. -/
theorem seenStore_eq_cleanup (rq : Request) (db : Db) (h : rq.env.sweepFirst = true) :
    seenStore rq db = (cleanupExpiredFiles true rq.sweepNow rq.env.sweepDeleteFails db).1 := by
  simp [seenStore, h, cleanupExpiredFiles]

theorem seenStore_uniqueIds {rq : Request} {db : Db} (hu : db.uniqueIds) :
    (seenStore rq db).uniqueIds := by
  unfold seenStore
  split
  · exact sweepDeletes_uniqueIds hu
  · exact hu

theorem mem_seenStore {rq : Request} {db : Db} {d : FileDoc}
    (h : d ∈ (seenStore rq db).files) : d ∈ db.files := by
  unfold seenStore at h
  split at h
  · exact mem_sweepDeletes_files h
  · exact h

theorem mem_seenStore_of_recent {rq : Request} {db : Db} {d : FileDoc} (hu : db.uniqueIds)
    (hd : d ∈ db.files) (hr : rq.sweepNow - d.metadata.createdAt ≤ 1200000) :
    d ∈ (seenStore rq db).files := by
  unfold seenStore
  split
  · apply mem_sweepDeletes_of_not_listed hu hd
    intro f hf e
    have hf2 := mem_findOlder.1 hf
    have := eq_of_mem_of_id_eq hu hd hf2.1 e
    subst this
    simp only [LINK_EXPIRY_MINUTES] at hf2
    omega
  · exact hd

theorem handlerBody_updateOne_iff (parse : String → Option ObjectId) (rq : Request) (db : Db)
    (x : ObjectId) :
    StoreOp.updateOne x ∈ (handlerBody parse rq db).ops ↔
      ∃ doc, parse rq.id = some x ∧ findOne x db = some doc ∧ expired doc rq.now = false := by
  cases hp : parse rq.id with
  | none => simp [handlerBody_malformed hp]
  | some oid =>
    cases hf : findOne oid db with
    | none =>
      simp only [handlerBody_not_found hp hf, List.mem_singleton, reduceCtorEq, Option.some.injEq,
        false_iff, not_exists, not_and]
      intro doc e h
      rw [← e, hf] at h
      cases h
    | some doc =>
      cases he : expired doc rq.now with
      | true =>
        rw [handlerBody_expired hp hf he]
        have hno : ¬ ∃ doc2, some oid = some x ∧ findOne x db = some doc2 ∧
            expired doc2 rq.now = false := by
          rintro ⟨doc2, e, h, h2⟩
          cases e
          rw [hf] at h
          cases h
          rw [he] at h2
          cases h2
        split <;> simp only [List.mem_cons, List.mem_singleton, reduceCtorEq, or_self,
          List.not_mem_nil, false_iff] <;> exact hno
      | false =>
        rw [handlerBody_passed hp hf he]
        have hno := updateOne_not_mem_streamPhase_ops rq oid doc
          { db with files := updateOneInc oid db.files } x
        have key : (x = oid) ↔ ∃ doc2, some oid = some x ∧ findOne x db = some doc2 ∧
            expired doc2 rq.now = false := by
          constructor
          · intro e; subst e; exact ⟨doc, rfl, hf, he⟩
          · rintro ⟨_, e, _⟩; cases e; rfl
        split
        · rename_i r ops heq
          rw [heq] at hno
          simp only [List.mem_append, List.mem_singleton, List.mem_cons, reduceCtorEq,
            StoreOp.updateOne.injEq, false_or, or_false, List.not_mem_nil, hno]
          exact key
        · rename_i r ops heq
          rw [heq] at hno
          simp only [List.mem_append, List.mem_singleton, List.mem_cons, reduceCtorEq,
            StoreOp.updateOne.injEq, false_or, or_false, List.not_mem_nil, hno]
          exact key

theorem getDownload_updateOne_iff (parse : String → Option ObjectId) (rq : Request) (db : Db)
    (x : ObjectId) :
    StoreOp.updateOne x ∈ (getDownload parse rq db).ops ↔
      StoreOp.updateOne x ∈ (handlerBody parse rq (seenStore rq db)).ops := by
  unfold getDownload seenStore
  split <;> simp [sweepOps]

/-- The gate, for a stored document and a request for its id handled at clock reading
`now` (the sweep having read its clock no later): the increment is issued exactly when
`accessCount` is 0 and `now - createdAt ≤ 20 min = 1200000 ms`. -/
theorem getDownload_passedGate_iff {parse : String → Option ObjectId} {rq : Request} {db : Db}
    {d : FileDoc} (hu : db.uniqueIds) (hd : d ∈ db.files) (hp : parse rq.id = some d._id)
    (hclock : rq.sweepNow ≤ rq.now) :
    StoreOp.updateOne d._id ∈ (getDownload parse rq db).ops ↔
      d.metadata.accessCount = 0 ∧ rq.now - d.metadata.createdAt ≤ 1200000 := by
  rw [getDownload_updateOne_iff, handlerBody_updateOne_iff]
  constructor
  · rintro ⟨doc, _, h2, h3⟩
    have hm := findOne_some h2
    have := eq_of_mem_of_id_eq hu hd (mem_seenStore hm.1) hm.2
    subst this
    exact (expired_eq_false_iff _ _).1 h3
  · intro h
    refine ⟨d, hp, ?_, (expired_eq_false_iff _ _).2 h⟩
    exact findOne_of_mem (seenStore_uniqueIds hu) (mem_seenStore_of_recent hu hd (by omega))

theorem passedGate_iff (o : Outcome) : o.passedGate = true ↔ ∃ x, StoreOp.updateOne x ∈ o.ops := by
  unfold Outcome.passedGate
  rw [List.any_eq_true]
  constructor
  · rintro ⟨op, hop, h⟩
    cases op <;> simp at h
    exact ⟨_, hop⟩
  · rintro ⟨x, hx⟩
    exact ⟨_, hx, rfl⟩

/-- A download that went out passed the gate. -/
theorem getDownload_admitted_imp_updateOne {parse : String → Option ObjectId} {rq : Request}
    {db : Db} (h : (getDownload parse rq db).response.admitted = true) :
    ∃ oid, parse rq.id = some oid ∧ StoreOp.updateOne oid ∈ (getDownload parse rq db).ops := by
  rw [getDownload_response] at h
  obtain ⟨oid, doc, h1, h2, h3⟩ := handlerBody_admitted_imp parse rq _ h
  refine ⟨oid, h1, ?_⟩
  rw [getDownload_updateOne_iff, handlerBody_updateOne_iff]
  exact ⟨doc, h1, h2, h3⟩

theorem getDownload_updateOne_parse {parse : String → Option ObjectId} {rq : Request}
    {db : Db} {x : ObjectId} (h : StoreOp.updateOne x ∈ (getDownload parse rq db).ops) :
    parse rq.id = some x := by
  rw [getDownload_updateOne_iff, handlerBody_updateOne_iff] at h
  obtain ⟨_, h1, _⟩ := h
  exact h1

/-! ## One request after the other -/

theorem mem_tryDelete_files {b : Bool} {id : ObjectId} {db : Db} {d : FileDoc}
    (h : d ∈ (tryDelete b id db).files) : d ∈ db.files := by
  unfold tryDelete at h
  split at h
  · exact h
  · exact mem_deleteOneFile h

/-- A document in the store after the handler body either was there before, or is a
document that had `accessCount = 0`, incremented once. -/
theorem handlerBody_files (parse : String → Option ObjectId) (rq : Request) (db : Db)
    (d : FileDoc) (h : d ∈ (handlerBody parse rq db).db.files) :
    d ∈ db.files ∨ ∃ d0 ∈ db.files, d = d0.bump ∧ d0.metadata.accessCount = 0 := by
  cases hp : parse rq.id with
  | none => rw [handlerBody_malformed hp] at h; exact Or.inl h
  | some oid =>
    cases hf : findOne oid db with
    | none => rw [handlerBody_not_found hp hf] at h; exact Or.inl h
    | some doc =>
      cases he : expired doc rq.now with
      | true =>
        rw [handlerBody_expired hp hf he] at h
        split at h
        · exact Or.inl h
        · exact Or.inl (mem_deleteOneFile h)
      | false =>
        rw [handlerBody_passed hp hf he] at h
        have key : d ∈ updateOneInc oid db.files →
            d ∈ db.files ∨ ∃ d0 ∈ db.files, d = d0.bump ∧ d0.metadata.accessCount = 0 := by
          intro hm
          rcases mem_updateOneInc hm with hm | ⟨d0, h0, h1⟩
          · exact Or.inl hm
          · have : d0 = doc := by
              unfold findOne at hf
              rw [hf] at h0
              exact (Option.some.inj h0).symm
            subst this
            exact Or.inr ⟨d0, (findOne_some hf).1, h1, ((expired_eq_false_iff _ _).1 he).1⟩
        split at h
        · exact key h
        · exact key (mem_tryDelete_files h)

theorem handlerBody_ids_sublist (parse : String → Option ObjectId) (rq : Request) (db : Db) :
    ((handlerBody parse rq db).db.files.map (fun d => d._id)).Sublist
      (db.files.map (fun d => d._id)) := by
  cases hp : parse rq.id with
  | none => rw [handlerBody_malformed hp]
  | some oid =>
    cases hf : findOne oid db with
    | none => rw [handlerBody_not_found hp hf]
    | some doc =>
      cases he : expired doc rq.now with
      | true =>
        rw [handlerBody_expired hp hf he]
        split
        · exact List.Sublist.refl _
        · exact deleteOneFile_ids_sublist _ _
      | false =>
        rw [handlerBody_passed hp hf he]
        split
        · simp only [updateOneInc_ids]; exact List.Sublist.refl _
        · refine (tryDelete_files_sublist _ _ _).trans ?_
          simp only [updateOneInc_ids]; exact List.Sublist.refl _

theorem getDownload_db (parse : String → Option ObjectId) (rq : Request) (db : Db) :
    (getDownload parse rq db).db =
      if rq.env.sweepFirst then (handlerBody parse rq (seenStore rq db)).db
      else sweepDeletes rq.env.sweepDeleteFails
        (findOlder (rq.sweepNow - LINK_EXPIRY_MINUTES * 60 * 1000) db)
        (handlerBody parse rq (seenStore rq db)).db := by
  unfold getDownload seenStore
  split <;> simp [*]

/-- The same, for the whole handler. -/
theorem getDownload_files (parse : String → Option ObjectId) (rq : Request) (db : Db)
    (d : FileDoc) (h : d ∈ (getDownload parse rq db).db.files) :
    d ∈ db.files ∨ ∃ d0 ∈ db.files, d = d0.bump ∧ d0.metadata.accessCount = 0 := by
  rw [getDownload_db] at h
  have h2 : d ∈ (handlerBody parse rq (seenStore rq db)).db.files := by
    split at h
    · exact h
    · exact mem_sweepDeletes_files h
  rcases handlerBody_files parse rq _ d h2 with h3 | ⟨d0, h3, h4⟩
  · exact Or.inl (mem_seenStore h3)
  · exact Or.inr ⟨d0, mem_seenStore h3, h4⟩

theorem getDownload_uniqueIds {parse : String → Option ObjectId} {rq : Request} {db : Db}
    (hu : db.uniqueIds) : (getDownload parse rq db).db.uniqueIds := by
  have h1 : (handlerBody parse rq (seenStore rq db)).db.uniqueIds :=
    List.Nodup.sublist (handlerBody_ids_sublist parse rq _) (seenStore_uniqueIds hu)
  rw [getDownload_db]
  split
  · exact h1
  · exact sweepDeletes_uniqueIds h1

theorem getDownload_accessCount_le_one {parse : String → Option ObjectId} {rq : Request}
    {db : Db} (h1 : ∀ d ∈ db.files, d.metadata.accessCount ≤ 1) :
    ∀ d ∈ (getDownload parse rq db).db.files, d.metadata.accessCount ≤ 1 := by
  intro d hd
  rcases getDownload_files parse rq db d hd with h | ⟨d0, _, h3, h4⟩
  · exact h1 d h
  · subst h3; simp [FileDoc.bump, h4]

theorem getDownload_consumed {parse : String → Option ObjectId} {rq : Request} {db : Db}
    {oid : ObjectId} (hc : db.consumed oid) : (getDownload parse rq db).db.consumed oid := by
  intro d hd hid
  rcases getDownload_files parse rq db d hd with h | ⟨d0, _, h3, _⟩
  · exact hc d h hid
  · subst h3; simp [FileDoc.bump]

/-- A consumed id never passes the gate again, and no download goes out for it. -/
theorem getDownload_rejects_consumed {parse : String → Option ObjectId} {rq : Request}
    {db : Db} {oid : ObjectId} (hc : db.consumed oid) (hp : parse rq.id = some oid) :
    (getDownload parse rq db).passedGate = false ∧
      (getDownload parse rq db).response.admitted = false := by
  have hno : ¬ ∃ x, StoreOp.updateOne x ∈ (getDownload parse rq db).ops := by
    rintro ⟨x, hx⟩
    rw [getDownload_updateOne_iff, handlerBody_updateOne_iff] at hx
    obtain ⟨doc, h1, h2, h3⟩ := hx
    rw [hp] at h1
    cases h1
    have hm := findOne_some h2
    have := hc doc (mem_seenStore hm.1) hm.2
    have := ((expired_eq_false_iff _ _).1 h3).1
    omega
  constructor
  · cases h : (getDownload parse rq db).passedGate with
    | false => rfl
    | true => exact absurd ((passedGate_iff _).1 h) hno
  · cases h : (getDownload parse rq db).response.admitted with
    | false => rfl
    | true =>
      obtain ⟨x, _, hx⟩ := getDownload_admitted_imp_updateOne h
      exact absurd ⟨x, hx⟩ hno

/-- A request that passes the gate leaves its id consumed. -/
theorem getDownload_passedGate_consumes {parse : String → Option ObjectId} {rq : Request}
    {db : Db} {oid : ObjectId} (hu : db.uniqueIds)
    (ha : StoreOp.updateOne oid ∈ (getDownload parse rq db).ops) :
    (getDownload parse rq db).db.consumed oid := by
  rw [getDownload_updateOne_iff, handlerBody_updateOne_iff] at ha
  obtain ⟨doc, hp, h2, h3⟩ := ha
  have hS : (seenStore rq db).uniqueIds := seenStore_uniqueIds hu
  have hb : ∀ d ∈ (handlerBody parse rq (seenStore rq db)).db.files, d._id = oid →
      1 ≤ d.metadata.accessCount := by
    intro d hd hid
    rw [handlerBody_passed hp h2 h3] at hd
    have key : d ∈ updateOneInc oid (seenStore rq db).files → 1 ≤ d.metadata.accessCount := by
      intro hm
      rw [updateOneInc_eq_map _ _ hS] at hm
      obtain ⟨d0, _, h5⟩ := List.mem_map.1 hm
      by_cases h6 : d0._id = oid
      · simp only [h6, if_true] at h5
        subst h5; simp [FileDoc.bump]
      · simp only [h6, if_false] at h5
        subst h5; exact absurd hid h6
    split at hd
    · exact key hd
    · exact key (mem_tryDelete_files hd)
  intro d hd hid
  rw [getDownload_db] at hd
  split at hd
  · exact hb d hd hid
  · exact hb d (mem_sweepDeletes_files hd) hid

theorem payload_of_not_admitted {r : Response} (h : r.admitted = false) : r.payload = [] := by
  cases r <;> simp_all [Response.admitted, Response.payload]

theorem runDownloads_rejects_consumed (parse : String → Option ObjectId) (rqs : List Request)
    (db : Db) (oid : ObjectId) (hc : db.consumed oid) :
    ∀ p ∈ runDownloads parse rqs db, parse p.1.id = some oid →
      p.2.passedGate = false ∧ p.2.response.admitted = false := by
  induction rqs generalizing db with
  | nil => simp [runDownloads]
  | cons rq rqs ih =>
    intro p hp hid
    simp only [runDownloads, List.mem_cons] at hp
    rcases hp with rfl | hp
    · exact getDownload_rejects_consumed hc hid
    · exact ih _ (getDownload_consumed hc) p hp hid

/-- Along a run, after a request that passed the gate, no later request for the same id
passes it, and none gets a download. -/
theorem runDownloads_pairwise_gate (parse : String → Option ObjectId) (rqs : List Request)
    (db : Db) (hu : db.uniqueIds) :
    (runDownloads parse rqs db).Pairwise (fun a b =>
      parse a.1.id = parse b.1.id → a.2.passedGate = true →
        b.2.passedGate = false ∧ b.2.response.admitted = false ∧ b.2.response.payload = []) := by
  induction rqs generalizing db with
  | nil => simp [runDownloads]
  | cons rq rqs ih =>
    simp only [runDownloads, List.pairwise_cons]
    refine ⟨?_, ih _ (getDownload_uniqueIds hu)⟩
    intro p hp hid ha
    obtain ⟨x, hx⟩ := (passedGate_iff _).1 ha
    have hpr := getDownload_updateOne_parse hx
    have hc := getDownload_passedGate_consumes hu hx
    have := runDownloads_rejects_consumed parse rqs _ x hc p hp (by rw [← hid, hpr])
    exact ⟨this.1, this.2, payload_of_not_admitted this.2⟩

theorem getDownload_admitted_imp_passedGate {parse : String → Option ObjectId} {rq : Request}
    {db : Db} (h : (getDownload parse rq db).response.admitted = true) :
    (getDownload parse rq db).passedGate = true := by
  obtain ⟨x, _, hx⟩ := getDownload_admitted_imp_updateOne h
  exact (passedGate_iff _).2 ⟨x, hx⟩

theorem runDownloads_admitted_imp_passedGate (parse : String → Option ObjectId)
    (rqs : List Request) (db : Db) :
    ∀ p ∈ runDownloads parse rqs db, p.2.response.admitted = true → p.2.passedGate = true := by
  induction rqs generalizing db with
  | nil => simp [runDownloads]
  | cons rq rqs ih =>
    intro p hp
    simp only [runDownloads, List.mem_cons] at hp
    rcases hp with rfl | hp
    · exact getDownload_admitted_imp_passedGate
    · exact ih _ p hp

theorem runDownloads_pairwise (parse : String → Option ObjectId) (rqs : List Request) (db : Db)
    (hu : db.uniqueIds) :
    (runDownloads parse rqs db).Pairwise (fun a b =>
      parse a.1.id = parse b.1.id → a.2.response.admitted = true →
        b.2.response.admitted = false ∧ b.2.response.payload = []) := by
  have h := runDownloads_pairwise_gate parse rqs db hu
  have hadm := runDownloads_admitted_imp_passedGate parse rqs db
  refine (List.Pairwise.and_mem.1 h).imp ?_
  rintro a b ⟨ha, _, hR⟩ hid hA
  exact (hR hid (hadm a ha hA)).2

theorem runDownloads_accessCount (parse : String → Option ObjectId) (rqs : List Request)
    (db : Db) (h1 : ∀ d ∈ db.files, d.metadata.accessCount ≤ 1) :
    ∀ p ∈ runDownloads parse rqs db, ∀ d ∈ p.2.db.files, d.metadata.accessCount ≤ 1 := by
  induction rqs generalizing db with
  | nil => simp [runDownloads]
  | cons rq rqs ih =>
    intro p hp
    simp only [runDownloads, List.mem_cons] at hp
    rcases hp with rfl | hp
    · exact getDownload_accessCount_le_one h1
    · exact ih _ (getDownload_accessCount_le_one h1) p hp

/-! ## Chunking and the round trip -/

theorem splitAux_flatten (size : Nat) (hs : 0 < size) (fuel : Nat) (bs : List Byte)
    (h : bs.length ≤ fuel) : (splitAux size fuel bs).flatten = bs := by
  induction fuel generalizing bs with
  | zero =>
    have : bs = [] := List.length_eq_zero.1 (by omega)
    simp [splitAux, this]
  | succ k ih =>
    simp only [splitAux]
    split
    · rename_i h0; simp [h0]
    · rename_i h0
      have hlen : 0 < bs.length := List.length_pos.2 h0
      rw [List.flatten_cons, ih (bs.drop size) (by simp only [List.length_drop]; omega)]
      exact List.take_append_drop size bs

theorem splitChunks_flatten (size : Nat) (hs : 0 < size) (bs : List Byte) :
    (splitChunks size bs).flatten = bs :=
  splitAux_flatten size hs bs.length bs (Nat.le_refl _)

theorem splitAux_block (size : Nat) (hs : 0 < size) (fuel : Nat) (bs : List Byte) (i : Nat)
    (b : List Byte) (h : (splitAux size fuel bs)[i]? = some b) :
    b = (bs.drop (i * size)).take size ∧ 0 < b.length ∧ b.length ≤ size := by
  induction fuel generalizing bs i with
  | zero => simp [splitAux] at h
  | succ k ih =>
    simp only [splitAux] at h
    split at h
    · simp at h
    · rename_i h0
      cases i with
      | zero =>
        simp only [List.getElem?_cons_zero, Option.some.injEq] at h
        subst h
        have hlen : 0 < bs.length := List.length_pos.2 h0
        refine ⟨by simp, ?_, ?_⟩ <;> simp only [List.length_take] <;> omega
      | succ j =>
        simp only [List.getElem?_cons_succ] at h
        have := ih (bs.drop size) j h
        refine ⟨?_, this.2⟩
        rw [this.1, List.drop_drop, Nat.succ_mul, Nat.add_comm]

theorem mkChunks_data (id : ObjectId) (k : Nat) (bs : List (List Byte)) :
    (mkChunks id k bs).map (fun c => c.data) = bs := by
  induction bs generalizing k with
  | nil => rfl
  | cons b bs ih => simp [mkChunks, ih]

theorem mkChunks_n (id : ObjectId) (k : Nat) (bs : List (List Byte)) :
    (mkChunks id k bs).map (fun c => c.n) = List.range' k bs.length := by
  induction bs generalizing k with
  | nil => rfl
  | cons b bs ih => simp [mkChunks, ih, List.range'_succ]

theorem mkChunks_files_id (id : ObjectId) (k : Nat) (bs : List (List Byte)) :
    ∀ c ∈ mkChunks id k bs, c.files_id = id := by
  induction bs generalizing k with
  | nil => simp [mkChunks]
  | cons b bs ih =>
    intro c hc
    simp only [mkChunks, List.mem_cons] at hc
    rcases hc with rfl | hc
    · rfl
    · exact ih _ c hc

theorem mkChunks_ge (id : ObjectId) (k : Nat) (bs : List (List Byte)) :
    ∀ c ∈ mkChunks id k bs, k ≤ c.n := by
  induction bs generalizing k with
  | nil => simp [mkChunks]
  | cons b bs ih =>
    intro c hc
    simp only [mkChunks, List.mem_cons] at hc
    rcases hc with rfl | hc
    · exact Nat.le_refl _
    · exact Nat.le_of_succ_le (ih _ c hc)

theorem mkChunks_sorted (id : ObjectId) (k : Nat) (bs : List (List Byte)) :
    (mkChunks id k bs).Sorted (fun a b => a.n ≤ b.n) := by
  induction bs generalizing k with
  | nil => simp [mkChunks]
  | cons b bs ih =>
    simp only [mkChunks, List.sorted_cons]
    exact ⟨fun c hc => Nat.le_of_succ_le (mkChunks_ge id (k + 1) bs c hc), ih _⟩

/-- Chunks stored under a fresh id right after its upload. -/
theorem postUpload_chunksOf {toHex : ObjectId → String} {sweepNow now : Int}
    {fails : ObjectId → Bool} {newId : ObjectId} {f : UploadedFile} {db : Db}
    (hfresh : db.absent newId) :
    (postUpload toHex sweepNow now fails newId (some f) db).db.chunksOf newId =
      mkChunks newId 0 (splitChunks chunkSizeBytes f.buffer) := by
  have h2 := (@cleanup_absent true sweepNow fails _ _ hfresh).2
  unfold Db.chunksOf
  rw [postUpload_chunks, List.filter_append]
  have e1 : (cleanupExpiredFiles true sweepNow fails db).1.chunks.filter
      (fun c => decide (c.files_id = newId)) = [] := by
    apply List.filter_eq_nil_iff.2
    intro c hc
    simpa using h2 c hc
  have e2 : (mkChunks newId 0 (splitChunks chunkSizeBytes f.buffer)).filter
      (fun c => decide (c.files_id = newId)) =
        mkChunks newId 0 (splitChunks chunkSizeBytes f.buffer) := by
    apply List.filter_eq_self.2
    intro c hc
    simpa using mkChunks_files_id _ _ _ c hc
  rw [e1, e2, List.nil_append]

/-- What the lookup of a download sees of a file uploaded within the retention window:
its document, and its chunks as written. -/
theorem seenStore_after_upload {toHex : ObjectId → String} {sweepNow0 t0 : Int}
    {fails0 : ObjectId → Bool} {newId : ObjectId} {f : UploadedFile} {db : Db} {rq : Request}
    (hu : db.uniqueIds) (hfresh : db.absent newId) (hclock : rq.sweepNow ≤ rq.now)
    (himm : rq.now - t0 ≤ 1200000) :
    findOne newId (seenStore rq (postUpload toHex sweepNow0 t0 fails0 newId (some f) db).db) =
        some (uploadedDoc newId t0 f) ∧
    (seenStore rq (postUpload toHex sweepNow0 t0 fails0 newId (some f) db).db).chunksOf newId =
        mkChunks newId 0 (splitChunks chunkSizeBytes f.buffer) := by
  have hu2 : (postUpload toHex sweepNow0 t0 fails0 newId (some f) db).db.uniqueIds :=
    postUpload_uniqueIds hu hfresh
  have hmem : uploadedDoc newId t0 f ∈
      (postUpload toHex sweepNow0 t0 fails0 newId (some f) db).db.files := by
    rw [postUpload_files]; simp
  constructor
  · have := findOne_of_mem (@seenStore_uniqueIds rq _ hu2)
      (@mem_seenStore_of_recent rq _ _ hu2 hmem (by simp only [uploadedDoc]; omega))
    simpa [uploadedDoc] using this
  · rw [← @postUpload_chunksOf toHex sweepNow0 t0 fails0 newId f db hfresh]
    unfold seenStore
    split
    · apply chunksOf_sweepDeletes_of_not_listed
      intro g hg e
      have hg2 := mem_findOlder.1 hg
      have := eq_of_mem_of_id_eq hu2 hmem hg2.1 (by simpa [uploadedDoc] using e)
      subst this
      simp only [LINK_EXPIRY_MINUTES, uploadedDoc] at hg2
      omega
    · rfl

/-- Reading back a file whose chunks are the ones its upload wrote yields its blocks. -/
theorem openDownloadStream_of_chunks {id : ObjectId} {db : Db} {doc : FileDoc}
    {buffer : List Byte} (hf : findOne id db = some doc)
    (hc : db.chunksOf id = mkChunks id 0 (splitChunks chunkSizeBytes buffer)) :
    openDownloadStream id { db with files := updateOneInc id db.files } =
      some (splitChunks chunkSizeBytes buffer) := by
  have hfind : ∃ doc2, findOne id { db with files := updateOneInc id db.files } = some doc2 := by
    cases h : findOne id { db with files := updateOneInc id db.files } with
    | some doc2 => exact ⟨doc2, rfl⟩
    | none =>
      exfalso
      have hn := findOne_none h
      have hm := findOne_some hf
      have : doc._id ∈ (updateOneInc id db.files).map (fun d => d._id) := by
        rw [updateOneInc_ids]; exact List.mem_map_of_mem _ hm.1
      obtain ⟨d, hd, e⟩ := List.mem_map.1 this
      exact hn d hd (e.trans hm.2)
  obtain ⟨doc2, h2⟩ := hfind
  have hc2 : Db.chunksOf id { db with files := updateOneInc id db.files } =
      mkChunks id 0 (splitChunks chunkSizeBytes buffer) := hc
  simp only [openDownloadStream, h2, orderedChunks, hc2,
    (mkChunks_sorted id 0 _).insertionSort_eq, mkChunks_data]

/-- Response of a download that finds document `doc` unexpired, its two header values
legal and its chunks as uploaded from `buffer`. -/
theorem handlerBody_streams {parse : String → Option ObjectId} {rq : Request} {db : Db}
    {oid : ObjectId} {doc : FileDoc} {buffer : List Byte} (hp : parse rq.id = some oid)
    (hf : findOne oid db = some doc) (he : expired doc rq.now = false)
    (hc : db.chunksOf oid = mkChunks oid 0 (splitChunks chunkSizeBytes buffer))
    (hl1 : legalHeaderValue doc.metadata.contentType = true)
    (hl2 : legalHeaderValue
      ("attachment; filename=\"" ++ doc.metadata.originalname ++ "\"") = true) :
    (handlerBody parse rq db).response =
      match rq.env.streamErrorAt with
      | none => .stream doc.metadata.contentType
          ("attachment; filename=\"" ++ doc.metadata.originalname ++ "\"") buffer false
      | some k => onStreamError doc.metadata.contentType
          ("attachment; filename=\"" ++ doc.metadata.originalname ++ "\"")
          ((splitChunks chunkSizeBytes buffer).take k).flatten := by
  rw [handlerBody_passed hp hf he]
  simp only [streamPhase, openDownloadStream_of_chunks hf hc, hl1, hl2, Bool.and_self, if_true]
  cases rq.env.streamErrorAt with
  | none => simp only [splitChunks_flatten _ (by decide : 0 < chunkSizeBytes)]
  | some k => rfl

/-- Round trip, for legal header values. Uploading a file with bytes `B`, content type
`c` and original name `n` under a fresh id, and then redeeming the returned reference
within the retention window with no stream error, emits exactly `B` with `Content-Type`
`c` and `Content-Disposition` `attachment; filename="n"`, provided `res.setHeader`
accepts both values. The chunk store holds `B` as consecutive blocks of 1 MiB (the last
one possibly shorter), numbered from 0, and the download is their concatenation in
sequence order. -/
theorem round_trip_of_legal_headers (parse : String → Option ObjectId)
    (toHex : ObjectId → String) (B : List Byte) (c n : String) (newId : ObjectId) (db : Db)
    (sweepNow0 t0 : Int) (fails0 : ObjectId → Bool) (sweepNow now : Int) (env : Oracle)
    (hu : db.uniqueIds) (hfresh : db.absent newId)
    (hcodec : parse (toHex newId) = some newId)
    (hclock : sweepNow ≤ now) (himm : now - t0 ≤ 20 * 60 * 1000)
    (hstream : env.streamErrorAt = none)
    (hl1 : legalHeaderValue c = true)
    (hl2 : legalHeaderValue ("attachment; filename=\"" ++ n ++ "\"") = true) :
    (postUpload toHex sweepNow0 t0 fails0 newId (some ⟨n, c, B⟩) db).response =
        .linkPage (toHex newId) ∧
    (getDownload parse ⟨toHex newId, sweepNow, now, env⟩
        (postUpload toHex sweepNow0 t0 fails0 newId (some ⟨n, c, B⟩) db).db).response =
        .stream c ("attachment; filename=\"" ++ n ++ "\"") B false ∧
    ((postUpload toHex sweepNow0 t0 fails0 newId (some ⟨n, c, B⟩) db).db.chunksOf newId).map
        (fun ch => ch.data) = splitChunks (1024 * 1024) B ∧
    ((postUpload toHex sweepNow0 t0 fails0 newId (some ⟨n, c, B⟩) db).db.chunksOf newId).map
        (fun ch => ch.n) = List.range (splitChunks (1024 * 1024) B).length ∧
    (∀ i b, (splitChunks (1024 * 1024) B)[i]? = some b →
        b = (B.drop (i * (1024 * 1024))).take (1024 * 1024) ∧ 0 < b.length) ∧
    (splitChunks (1024 * 1024) B).flatten = B := by
  have himm2 : now - t0 ≤ 1200000 := by omega
  refine ⟨rfl, ?_, ?_, ?_, ?_, splitChunks_flatten _ (by decide) B⟩
  · have hseen := @seenStore_after_upload toHex sweepNow0 t0 fails0 newId ⟨n, c, B⟩ db
      ⟨toHex newId, sweepNow, now, env⟩ hu hfresh hclock himm2
    have he : expired (uploadedDoc newId t0 ⟨n, c, B⟩) now = false :=
      (expired_eq_false_iff _ _).2 ⟨rfl, himm2⟩
    rw [getDownload_response,
      @handlerBody_streams parse ⟨toHex newId, sweepNow, now, env⟩ _ _ _ B hcodec
        hseen.1 he hseen.2 hl1 hl2]
    simp [hstream, uploadedDoc]
  · rw [postUpload_chunksOf hfresh, mkChunks_data]; rfl
  · rw [postUpload_chunksOf hfresh, mkChunks_n, List.range_eq_range']; rfl
  · intro i b h
    have := splitAux_block (1024 * 1024) (by decide) B.length B i b h
    exact ⟨this.1, this.2.1⟩

theorem length_filter_le_one_of_pairwise {α : Type} {R : α → α → Prop} {p : α → Bool}
    {l : List α} (hR : l.Pairwise R) (hp : ∀ a b, p a = true → p b = true → ¬ R a b) :
    (l.filter p).length ≤ 1 := by
  have h1 : (l.filter p).Pairwise R := hR.filter p
  have h2 : ∀ a ∈ l.filter p, p a = true := fun a ha => (List.mem_filter.1 ha).2
  cases h : l.filter p with
  | nil => simp
  | cons a t =>
    cases t with
    | nil => simp
    | cons b t =>
      rw [h] at h1 h2
      exfalso
      exact hp a b (h2 a (by simp)) (h2 b (by simp)) ((List.pairwise_cons.1 h1).1 b (by simp))

theorem postUpload_accessCount_le_one {toHex : ObjectId → String} {sweepNow now : Int}
    {fails : ObjectId → Bool} {newId : ObjectId} {f : UploadedFile} {db : Db}
    (h1 : ∀ d ∈ db.files, d.metadata.accessCount ≤ 1) :
    ∀ d ∈ (postUpload toHex sweepNow now fails newId (some f) db).db.files,
      d.metadata.accessCount ≤ 1 := by
  intro d hd
  rw [postUpload_files, List.mem_append] at hd
  rcases hd with hd | hd
  · rw [cleanup_db] at hd
    exact h1 d (mem_sweepDeletes_files hd)
  · simp only [List.mem_singleton] at hd
    subst hd
    simp [uploadedDoc]

/-- Claim C3. Download requests handled one after the other, each to completion, from a
store in which no `accessCount` exceeds 1 (in particular a store of freshly uploaded
files, whose count is 0): once a request for an id has been admitted, every later
request for the same id is rejected and carries no payload byte; at most one request
per id is admitted; and `accessCount` never exceeds 1 in any store along the run. The
same holds when the run starts right after an upload. All of it holds for passing the
gate (the increment issued) as for a download going out: once a request for an id has
passed the gate, whatever became of its headers and its stream, no later request for
that id passes it. -/
theorem sequential_downloads_admit_each_id_at_most_once (parse : String → Option ObjectId)
    (rqs : List Request) (db : Db) (hu : db.uniqueIds)
    (h1 : ∀ d ∈ db.files, d.metadata.accessCount ≤ 1) :
    (runDownloads parse rqs db).Pairwise (fun a b =>
      parse a.1.id = parse b.1.id → a.2.response.admitted = true →
        b.2.response.admitted = false ∧ b.2.response.payload = []) ∧
    (∀ oid : ObjectId, ((runDownloads parse rqs db).filter (fun p =>
      decide (parse p.1.id = some oid) && p.2.response.admitted)).length ≤ 1) ∧
    (∀ p ∈ runDownloads parse rqs db, ∀ d ∈ p.2.db.files, d.metadata.accessCount ≤ 1) ∧
    (∀ (toHex : ObjectId → String) (sweepNow0 t0 : Int) (fails0 : ObjectId → Bool)
        (newId : ObjectId) (f : UploadedFile), db.absent newId →
      (runDownloads parse rqs
          (postUpload toHex sweepNow0 t0 fails0 newId (some f) db).db).Pairwise (fun a b =>
        parse a.1.id = parse b.1.id → a.2.response.admitted = true →
          b.2.response.admitted = false ∧ b.2.response.payload = []) ∧
      (∀ p ∈ runDownloads parse rqs (postUpload toHex sweepNow0 t0 fails0 newId (some f) db).db,
        ∀ d ∈ p.2.db.files, d.metadata.accessCount ≤ 1)) ∧
    (runDownloads parse rqs db).Pairwise (fun a b =>
      parse a.1.id = parse b.1.id → a.2.passedGate = true →
        b.2.passedGate = false ∧ b.2.response.admitted = false ∧ b.2.response.payload = []) ∧
    (∀ oid : ObjectId, ((runDownloads parse rqs db).filter (fun p =>
      decide (parse p.1.id = some oid) && p.2.passedGate)).length ≤ 1) ∧
    (∀ (toHex : ObjectId → String) (sweepNow0 t0 : Int) (fails0 : ObjectId → Bool)
        (newId : ObjectId) (f : UploadedFile), db.absent newId →
      (runDownloads parse rqs
          (postUpload toHex sweepNow0 t0 fails0 newId (some f) db).db).Pairwise (fun a b =>
        parse a.1.id = parse b.1.id → a.2.passedGate = true →
          b.2.passedGate = false ∧ b.2.response.admitted = false ∧
            b.2.response.payload = [])) := by
  refine ⟨runDownloads_pairwise parse rqs db hu, ?_, runDownloads_accessCount parse rqs db h1,
    ?_, runDownloads_pairwise_gate parse rqs db hu, ?_, ?_⟩
  · intro oid
    apply length_filter_le_one_of_pairwise (runDownloads_pairwise parse rqs db hu)
    intro a b ha hb hR
    simp only [Bool.and_eq_true, decide_eq_true_eq] at ha hb
    have := (hR (ha.1.trans hb.1.symm) ha.2).1
    rw [hb.2] at this
    cases this
  · intro toHex sweepNow0 t0 fails0 newId f hfresh
    exact ⟨runDownloads_pairwise parse rqs _ (postUpload_uniqueIds hu hfresh),
      runDownloads_accessCount parse rqs _ (postUpload_accessCount_le_one h1)⟩
  · intro oid
    apply length_filter_le_one_of_pairwise (runDownloads_pairwise_gate parse rqs db hu)
    intro a b ha hb hR
    simp only [Bool.and_eq_true, decide_eq_true_eq] at ha hb
    have := (hR (ha.1.trans hb.1.symm) ha.2).1
    rw [hb.2] at this
    cases this
  · intro toHex sweepNow0 t0 fails0 newId f hfresh
    exact runDownloads_pairwise_gate parse rqs _ (postUpload_uniqueIds hu hfresh)

/-! ## Rejections -/

theorem expired_eq_true_iff (doc : FileDoc) (now : Int) :
    expired doc now = true ↔
      1 ≤ doc.metadata.accessCount ∨ now - doc.metadata.createdAt > 1200000 := by
  simp [expired, LINK_EXPIRY_MINUTES]

/-- Counterexample to claim C4: with the same store, a request for an id that is not in the
catalog is answered "Link is invalid or expired." while a request for a consumed object
is answered "The link has expired."; the two responses differ. -/
theorem not_found_response_differs_from_consumed_response :
    (getDownload sampleParse ⟨"64b7f1a2c3d4e5f601234568", 5, 5, calm⟩
        (sampleDb 0 1)).response = .send 200 "Link is invalid or expired." ∧
    (getDownload sampleParse ⟨"64b7f1a2c3d4e5f601234567", 5, 5, calm⟩
        (sampleDb 0 1)).response = .send 200 "The link has expired." ∧
    (getDownload sampleParse ⟨"64b7f1a2c3d4e5f601234568", 5, 5, calm⟩
        (sampleDb 0 1)).response ≠
      (getDownload sampleParse ⟨"64b7f1a2c3d4e5f601234567", 5, 5, calm⟩
        (sampleDb 0 1)).response := by
  decide

/-- Claim C4, amended. The handler has two rejection texts. An id the lookup does not find
is answered "Link is invalid or expired.". A document the lookup finds consumed
(`accessCount ≥ 1`) or past retention (`now - createdAt > 20 min`) is answered
"The link has expired." in both cases, provided the handler's delete succeeds. The two
texts differ, so the response separates not-found from consumed-or-expired, and does not
separate consumed from expired. -/
theorem rejection_has_two_texts (parse : String → Option ObjectId) (rq : Request) (db : Db)
    (oid : ObjectId) (hp : parse rq.id = some oid) :
    ((∀ d ∈ (seenStore rq db).files, d._id ≠ oid) →
        (getDownload parse rq db).response = .send 200 "Link is invalid or expired.") ∧
    (∀ d, findOne oid (seenStore rq db) = some d → rq.env.deleteFails = false →
        1 ≤ d.metadata.accessCount →
        (getDownload parse rq db).response = .send 200 "The link has expired.") ∧
    (∀ d, findOne oid (seenStore rq db) = some d → rq.env.deleteFails = false →
        rq.now - d.metadata.createdAt > 20 * 60 * 1000 →
        (getDownload parse rq db).response = .send 200 "The link has expired.") ∧
    Response.send 200 "Link is invalid or expired." ≠ Response.send 200 "The link has expired." := by
  refine ⟨?_, ?_, ?_, by decide⟩
  · intro h
    have hf : findOne oid (seenStore rq db) = none := by
      cases hf : findOne oid (seenStore rq db) with
      | none => rfl
      | some d => exact absurd (findOne_some hf).2 (h d (findOne_some hf).1)
    rw [getDownload_response, handlerBody_not_found hp hf]
  · intro d hf hdel hc
    rw [getDownload_response,
      handlerBody_expired hp hf ((expired_eq_true_iff _ _).2 (Or.inl hc))]
    simp [hdel]
  · intro d hf hdel hold
    rw [getDownload_response,
      handlerBody_expired hp hf ((expired_eq_true_iff _ _).2 (Or.inr (by omega)))]
    simp [hdel]

/-- Instance of `rejection_has_two_texts`: a consumed object and an object past
retention get the same text. -/
theorem rejection_has_two_texts_witness :
    sampleParse "64b7f1a2c3d4e5f601234567" = some 1 ∧
    (getDownload sampleParse ⟨"64b7f1a2c3d4e5f601234567", 5, 5, calm⟩
        (sampleDb 0 1)).response = .send 200 "The link has expired." ∧
    (getDownload sampleParse ⟨"64b7f1a2c3d4e5f601234567", 1200001, 1200001, calm⟩
        (sampleDb 0 0)).response = .send 200 "The link has expired." :=
  ⟨by decide,
   (rejection_has_two_texts sampleParse ⟨"64b7f1a2c3d4e5f601234567", 5, 5, calm⟩
      (sampleDb 0 1) 1 (by decide)).2.1 (sampleDoc 0 1) (by decide) (by decide) (by decide),
   (rejection_has_two_texts sampleParse ⟨"64b7f1a2c3d4e5f601234567", 1200001, 1200001, calm⟩
      (sampleDb 0 0) 1 (by decide)).2.2.1 (sampleDoc 0 0) (by decide) (by decide) (by decide)⟩

/-! ## Malformed references -/

/-- Counterexample to claim C5: a request with a malformed id against a store that holds a
file past retention is answered "Invalid download link.", yet the handler has already
started the sweep: a catalog query and a delete were issued, and the store afterwards
differs from the store before. -/
theorem malformed_reference_still_sweeps :
    sampleParse "not-an-id" = none ∧
    (getDownload sampleParse ⟨"not-an-id", 1260000, 1260000, calm⟩ (sampleDb 0 0)).response =
      .send 200 "Invalid download link." ∧
    (getDownload sampleParse ⟨"not-an-id", 1260000, 1260000, calm⟩ (sampleDb 0 0)).ops =
      [.find 60000, .delete 1] ∧
    (getDownload sampleParse ⟨"not-an-id", 1260000, 1260000, calm⟩ (sampleDb 0 0)).db =
      ⟨[], []⟩ ∧
    (getDownload sampleParse ⟨"not-an-id", 1260000, 1260000, calm⟩ (sampleDb 0 0)).db ≠
      sampleDb 0 0 := by
  decide

/-- Claim C5, amended. A request with a malformed id is answered "Invalid download link."
and the handler issues no operation of its own: the only store operations are those of
the sweep it starts before it reads the id, one catalog query and one delete per file
past retention at the sweep's clock reading. Every file within retention keeps its
document and its chunks, and when no stored file is past retention the store is left
as it was. -/
theorem malformed_reference_only_sweeps (parse : String → Option ObjectId) (rq : Request)
    (db : Db) (hp : parse rq.id = none) (hu : db.uniqueIds) :
    (getDownload parse rq db).response = .send 200 "Invalid download link." ∧
    (getDownload parse rq db).ops =
      .find (rq.sweepNow - 20 * 60 * 1000) ::
        (findOlder (rq.sweepNow - 20 * 60 * 1000) db).map (fun f => StoreOp.delete f._id) ∧
    (getDownload parse rq db).db =
      sweepDeletes rq.env.sweepDeleteFails (findOlder (rq.sweepNow - 20 * 60 * 1000) db) db ∧
    (∀ d ∈ db.files, rq.sweepNow - d.metadata.createdAt ≤ 20 * 60 * 1000 →
      d ∈ (getDownload parse rq db).db.files ∧
      (getDownload parse rq db).db.chunksOf d._id = db.chunksOf d._id) ∧
    ((∀ d ∈ db.files, rq.sweepNow - d.metadata.createdAt ≤ 20 * 60 * 1000) →
      (getDownload parse rq db).db = db ∧
      (getDownload parse rq db).ops = [.find (rq.sweepNow - 20 * 60 * 1000)]) := by
  simp only [show (20 * 60 * 1000 : Int) = 1200000 by norm_num]
  have hdb : (getDownload parse rq db).db =
      sweepDeletes rq.env.sweepDeleteFails (findOlder (rq.sweepNow - 1200000) db) db := by
    rw [getDownload_db]
    simp only [handlerBody_malformed hp, seenStore, LINK_EXPIRY_MINUTES]
    split <;> simp
  have hops : (getDownload parse rq db).ops =
      .find (rq.sweepNow - 1200000) ::
        (findOlder (rq.sweepNow - 1200000) db).map (fun f => StoreOp.delete f._id) := by
    simp only [getDownload, handlerBody_malformed hp, LINK_EXPIRY_MINUTES, sweepOps]
    split <;> simp
  refine ⟨?_, hops, hdb, ?_, ?_⟩
  · rw [getDownload_response, handlerBody_malformed hp]
  · intro d hd hr
    have hL : ∀ f ∈ findOlder (rq.sweepNow - 1200000) db, f._id ≠ d._id := by
      intro f hf e
      have hf2 := mem_findOlder.1 hf
      have := eq_of_mem_of_id_eq hu hd hf2.1 e
      subst this
      omega
    rw [hdb]
    exact ⟨mem_sweepDeletes_of_not_listed hu hd hL, chunksOf_sweepDeletes_of_not_listed hL⟩
  · intro hall
    have hnil : findOlder (rq.sweepNow - 1200000) db = [] := by
      apply List.filter_eq_nil_iff.2
      intro d hd
      have := hall d hd
      simp only [decide_eq_true_eq]
      omega
    rw [hdb, hops, hnil]
    exact ⟨rfl, rfl⟩

/-- Instance of `malformed_reference_only_sweeps`: with no file past retention the
request leaves the store untouched. -/
theorem malformed_reference_only_sweeps_witness :
    sampleParse "not-an-id" = none ∧ (sampleDb 0 0).uniqueIds ∧
    (getDownload sampleParse ⟨"not-an-id", 5, 5, calm⟩ (sampleDb 0 0)).response =
      .send 200 "Invalid download link." ∧
    (getDownload sampleParse ⟨"not-an-id", 5, 5, calm⟩ (sampleDb 0 0)).db = sampleDb 0 0 :=
  ⟨by decide, by decide,
   (malformed_reference_only_sweeps sampleParse ⟨"not-an-id", 5, 5, calm⟩ (sampleDb 0 0)
      (by decide) (by decide)).1,
   ((malformed_reference_only_sweeps sampleParse ⟨"not-an-id", 5, 5, calm⟩ (sampleDb 0 0)
      (by decide) (by decide)).2.2.2.2 (by decide)).1⟩

/-! ## After the stream -/

theorem openDownloadStream_after_inc {id : ObjectId} {db : Db} {doc : FileDoc}
    (hf : findOne id db = some doc) :
    openDownloadStream id { db with files := updateOneInc id db.files } =
      some ((orderedChunks id db).map (fun c => c.data)) := by
  cases h : findOne id { db with files := updateOneInc id db.files } with
  | some doc2 => simp only [openDownloadStream, h]; rfl
  | none =>
    exfalso
    have hn := findOne_none h
    have hm := findOne_some hf
    have : doc._id ∈ (updateOneInc id db.files).map (fun d => d._id) := by
      rw [updateOneInc_ids]; exact List.mem_map_of_mem _ hm.1
    obtain ⟨d, hd, e⟩ := List.mem_map.1 this
    exact hn d hd (e.trans hm.2)

/-- A request that passes the gate with legal header values and whose stream ends: the
whole file goes out and the `end` handler issues the delete. -/
theorem handlerBody_passed_ended {parse : String → Option ObjectId} {rq : Request} {db : Db}
    {oid : ObjectId} {doc : FileDoc} (hp : parse rq.id = some oid)
    (hf : findOne oid db = some doc) (he : expired doc rq.now = false)
    (hl1 : legalHeaderValue doc.metadata.contentType = true)
    (hl2 : legalHeaderValue
      ("attachment; filename=\"" ++ doc.metadata.originalname ++ "\"") = true)
    (hs : rq.env.streamErrorAt = none) :
    handlerBody parse rq db =
      ⟨.stream doc.metadata.contentType
          ("attachment; filename=\"" ++ doc.metadata.originalname ++ "\"")
          ((orderedChunks oid db).map (fun c => c.data)).flatten false,
        tryDelete rq.env.deleteFails oid { db with files := updateOneInc oid db.files },
        [.findOne oid, .updateOne oid, .openDownloadStream oid, .delete oid]⟩ := by
  rw [handlerBody_passed hp hf he]
  simp [streamPhase, openDownloadStream_after_inc hf, hs, hl1, hl2]

/-- A request that passes the gate with legal header values and whose stream errors
after `k` chunks: only the `error` handler runs, and it issues nothing. -/
theorem handlerBody_passed_broken {parse : String → Option ObjectId} {rq : Request} {db : Db}
    {oid : ObjectId} {doc : FileDoc} {k : Nat} (hp : parse rq.id = some oid)
    (hf : findOne oid db = some doc) (he : expired doc rq.now = false)
    (hl1 : legalHeaderValue doc.metadata.contentType = true)
    (hl2 : legalHeaderValue
      ("attachment; filename=\"" ++ doc.metadata.originalname ++ "\"") = true)
    (hs : rq.env.streamErrorAt = some k) :
    handlerBody parse rq db =
      ⟨onStreamError doc.metadata.contentType
          ("attachment; filename=\"" ++ doc.metadata.originalname ++ "\"")
          (((orderedChunks oid db).map (fun c => c.data)).take k).flatten,
        { db with files := updateOneInc oid db.files },
        [.findOne oid, .updateOne oid, .openDownloadStream oid]⟩ := by
  rw [handlerBody_passed hp hf he]
  simp [streamPhase, openDownloadStream_after_inc hf, hs, hl1, hl2]

/-- A request that passes the gate and one of whose header values `res.setHeader`
refuses: the count is incremented, nothing is sent, no stream is opened, nothing is
deleted. -/
theorem handlerBody_passed_refused {parse : String → Option ObjectId} {rq : Request} {db : Db}
    {oid : ObjectId} {doc : FileDoc} (hp : parse rq.id = some oid)
    (hf : findOne oid db = some doc) (he : expired doc rq.now = false)
    (hl : (legalHeaderValue doc.metadata.contentType &&
      legalHeaderValue ("attachment; filename=\"" ++ doc.metadata.originalname ++ "\"")) =
        false) :
    handlerBody parse rq db =
      ⟨.unhandled, { db with files := updateOneInc oid db.files },
        [.findOne oid, .updateOne oid]⟩ := by
  rw [handlerBody_passed hp hf he]
  simp [streamPhase, hl]

theorem not_listed_of_recent {db : Db} {d : FileDoc} {sweepNow : Int} (hu : db.uniqueIds)
    (hd : d ∈ db.files) (hr : sweepNow - d.metadata.createdAt ≤ 1200000) :
    ∀ f ∈ findOlder (sweepNow - LINK_EXPIRY_MINUTES * 60 * 1000) db, f._id ≠ d._id := by
  intro f hf e
  have hf2 := mem_findOlder.1 hf
  have := eq_of_mem_of_id_eq hu hd hf2.1 e
  subst this
  simp only [LINK_EXPIRY_MINUTES] at hf2
  omega

theorem chunksOf_seenStore_of_recent {rq : Request} {db : Db} {d : FileDoc}
    (hu : db.uniqueIds) (hd : d ∈ db.files)
    (hr : rq.sweepNow - d.metadata.createdAt ≤ 1200000) :
    (seenStore rq db).chunksOf d._id = db.chunksOf d._id := by
  unfold seenStore
  split
  · exact chunksOf_sweepDeletes_of_not_listed (not_listed_of_recent hu hd hr)
  · rfl

theorem gfsDelete_absent {id : ObjectId} {db : Db} (hu : db.uniqueIds) :
    (gfsDelete id db).absent id := by
  constructor
  · intro d hd
    simp only [gfsDelete] at hd
    rw [deleteOneFile_eq_filter _ _ hu] at hd
    simpa using (List.mem_filter.1 hd).2
  · intro c hc
    simp only [gfsDelete] at hc
    simpa using (List.mem_filter.1 hc).2

theorem sweepDeletes_absent {fails : ObjectId → Bool} {L : List FileDoc} {db : Db}
    {id : ObjectId} (h : db.absent id) : (sweepDeletes fails L db).absent id := by
  refine ⟨fun d hd => h.1 d (mem_sweepDeletes_files hd), fun ch hc => h.2 ch ?_⟩
  rw [sweepDeletes_chunks] at hc
  exact (List.mem_filter.1 hc).1

theorem mem_bump_updateOneInc {db : Db} {d : FileDoc} (hu : db.uniqueIds) (hd : d ∈ db.files) :
    d.bump ∈ updateOneInc d._id db.files := by
  rw [updateOneInc_eq_map _ _ hu]
  exact List.mem_map.2 ⟨d, hd, by simp⟩

/-- Counterexample to claim C7: a request passes the gate and its stream errors before
the first chunk. The handler answers 500 "Error downloading file." and issues no delete:
once the request is over the object is still in the catalog (with `accessCount = 1`) and
in the chunk store. -/
theorem stream_error_leaves_object_in_store :
    (getDownload sampleParse ⟨"64b7f1a2c3d4e5f601234567", 5, 5, streamBreaks⟩
        (sampleDb 0 0)).response = .send 500 "Error downloading file." ∧
    (getDownload sampleParse ⟨"64b7f1a2c3d4e5f601234567", 5, 5, streamBreaks⟩
        (sampleDb 0 0)).ops =
      [.find (-1199995), .findOne 1, .updateOne 1, .openDownloadStream 1] ∧
    (getDownload sampleParse ⟨"64b7f1a2c3d4e5f601234567", 5, 5, streamBreaks⟩
        (sampleDb 0 0)).db = sampleDb 0 1 ∧
    ¬ (getDownload sampleParse ⟨"64b7f1a2c3d4e5f601234567", 5, 5, streamBreaks⟩
        (sampleDb 0 0)).db.absent 1 := by
  decide

theorem getDownload_ops (parse : String → Option ObjectId) (rq : Request) (db : Db) :
    (getDownload parse rq db).ops =
      if rq.env.sweepFirst then
        StoreOp.find (rq.sweepNow - LINK_EXPIRY_MINUTES * 60 * 1000) ::
          (sweepOps (findOlder (rq.sweepNow - LINK_EXPIRY_MINUTES * 60 * 1000) db) ++
            (handlerBody parse rq (seenStore rq db)).ops)
      else
        StoreOp.find (rq.sweepNow - LINK_EXPIRY_MINUTES * 60 * 1000) ::
          ((handlerBody parse rq (seenStore rq db)).ops ++
            sweepOps (findOlder (rq.sweepNow - LINK_EXPIRY_MINUTES * 60 * 1000) db)) := by
  unfold getDownload seenStore
  split <;> simp [*]

theorem delete_mem_sweepOps {L : List FileDoc} {id : ObjectId} :
    StoreOp.delete id ∈ sweepOps L ↔ ∃ f ∈ L, f._id = id := by
  simp [sweepOps]

theorem orderedChunks_seenStore_of_recent {rq : Request} {db : Db} {d : FileDoc}
    (hu : db.uniqueIds) (hd : d ∈ db.files)
    (hr : rq.sweepNow - d.metadata.createdAt ≤ 1200000) :
    orderedChunks d._id (seenStore rq db) = orderedChunks d._id db := by
  unfold orderedChunks
  rw [chunksOf_seenStore_of_recent hu hd hr]

/-- Claim C7, amended. A download request that passes the gate and opens its stream (its
two header values being legal) deletes the object only when the stream ends: then the
whole file has gone out, the `end` handler issues `gfs.delete` for the id, and when that
delete succeeds the catalog entry and all chunks are gone. When the stream errors after
`k` chunks, the handler issues no delete; after the request the document is still in the
catalog, with `accessCount` incremented to 1, and its chunks are untouched. The client
then has 500 "Error downloading file." when no byte had gone out, and otherwise the 200
response cut after the `k` chunks delivered. -/
theorem delete_follows_stream_end_only (parse : String → Option ObjectId) (rq : Request)
    (db : Db) (d : FileDoc) (hu : db.uniqueIds) (hd : d ∈ db.files)
    (hp : parse rq.id = some d._id) (hclock : rq.sweepNow ≤ rq.now)
    (h0 : d.metadata.accessCount = 0)
    (hT : rq.now - d.metadata.createdAt ≤ 20 * 60 * 1000)
    (hl1 : legalHeaderValue d.metadata.contentType = true)
    (hl2 : legalHeaderValue
      ("attachment; filename=\"" ++ d.metadata.originalname ++ "\"") = true) :
    StoreOp.updateOne d._id ∈ (getDownload parse rq db).ops ∧
    StoreOp.openDownloadStream d._id ∈ (getDownload parse rq db).ops ∧
    (rq.env.streamErrorAt = none →
      (getDownload parse rq db).response =
        .stream d.metadata.contentType
          ("attachment; filename=\"" ++ d.metadata.originalname ++ "\"")
          ((orderedChunks d._id db).map (fun c => c.data)).flatten false ∧
      StoreOp.delete d._id ∈ (getDownload parse rq db).ops ∧
      (rq.env.deleteFails = false → (getDownload parse rq db).db.absent d._id)) ∧
    (∀ k, rq.env.streamErrorAt = some k →
      StoreOp.delete d._id ∉ (getDownload parse rq db).ops ∧
      d.bump ∈ (getDownload parse rq db).db.files ∧
      d.bump.metadata.accessCount = 1 ∧
      (getDownload parse rq db).db.chunksOf d._id = db.chunksOf d._id ∧
      ((((orderedChunks d._id db).map (fun c => c.data)).take k).flatten = [] →
        (getDownload parse rq db).response = .send 500 "Error downloading file.") ∧
      ((((orderedChunks d._id db).map (fun c => c.data)).take k).flatten ≠ [] →
        (getDownload parse rq db).response =
          .stream d.metadata.contentType
            ("attachment; filename=\"" ++ d.metadata.originalname ++ "\"")
            (((orderedChunks d._id db).map (fun c => c.data)).take k).flatten true)) := by
  have hT2 : rq.now - d.metadata.createdAt ≤ 1200000 := by omega
  have hr : rq.sweepNow - d.metadata.createdAt ≤ 1200000 := by omega
  have hSu : (seenStore rq db).uniqueIds := seenStore_uniqueIds hu
  have hmem : d ∈ (seenStore rq db).files := mem_seenStore_of_recent hu hd hr
  have hf : findOne d._id (seenStore rq db) = some d := findOne_of_mem hSu hmem
  have he : expired d rq.now = false := (expired_eq_false_iff _ _).2 ⟨h0, hT2⟩
  have hL := not_listed_of_recent hu hd hr
  have hoc := @orderedChunks_seenStore_of_recent rq db d hu hd hr
  have hno : StoreOp.delete d._id ∉
      sweepOps (findOlder (rq.sweepNow - LINK_EXPIRY_MINUTES * 60 * 1000) db) := by
    rw [delete_mem_sweepOps]
    rintro ⟨f, hfm, e⟩
    exact hL f hfm e
  have hu2 : Db.uniqueIds { seenStore rq db with
      files := updateOneInc d._id (seenStore rq db).files } := by
    unfold Db.uniqueIds
    simp only [updateOneInc_ids]
    exact hSu
  have hgate : StoreOp.updateOne d._id ∈ (getDownload parse rq db).ops :=
    (getDownload_passedGate_iff hu hd hp hclock).2 ⟨h0, hT2⟩
  have hopen : StoreOp.openDownloadStream d._id ∈ (getDownload parse rq db).ops := by
    rw [getDownload_ops]
    cases hs : rq.env.streamErrorAt with
    | none =>
      rw [handlerBody_passed_ended hp hf he hl1 hl2 hs]
      split <;> simp
    | some k =>
      rw [handlerBody_passed_broken hp hf he hl1 hl2 hs]
      split <;> simp
  refine ⟨hgate, hopen, ?_, ?_⟩
  · intro hs
    have hb := handlerBody_passed_ended hp hf he hl1 hl2 hs
    refine ⟨?_, ?_, ?_⟩
    · rw [getDownload_response, hb, hoc]
    · rw [getDownload_ops, hb]
      split <;> simp
    · intro hdel
      have habs : (tryDelete rq.env.deleteFails d._id { seenStore rq db with
          files := updateOneInc d._id (seenStore rq db).files }).absent d._id := by
        simp only [tryDelete, hdel]
        exact gfsDelete_absent hu2
      rw [getDownload_db, hb]
      split
      · exact habs
      · exact sweepDeletes_absent habs
  · intro k hs
    have hb := handlerBody_passed_broken hp hf he hl1 hl2 hs
    have hbump : d.bump ∈ updateOneInc d._id (seenStore rq db).files :=
      mem_bump_updateOneInc hSu hmem
    refine ⟨?_, ?_, by simp [FileDoc.bump, h0], ?_, ?_, ?_⟩
    · rw [getDownload_ops, hb]
      split <;> simp [hno]
    · rw [getDownload_db, hb]
      split
      · exact hbump
      · exact mem_sweepDeletes_of_not_listed hu2 hbump hL
    · rw [getDownload_db, hb]
      split
      · exact chunksOf_seenStore_of_recent hu hd hr
      · rw [chunksOf_sweepDeletes_of_not_listed hL]
        exact chunksOf_seenStore_of_recent hu hd hr
    · intro hnil
      rw [getDownload_response, hb, hoc]
      simp [onStreamError, hnil]
    · intro hne
      rw [getDownload_response, hb, hoc]
      simp [onStreamError, hne]

/-- Instance of `delete_follows_stream_end_only`: one download that ends and one that
breaks before its first chunk, of the same stored file. -/
theorem delete_follows_stream_end_only_witness :
    (sampleDb 0 0).uniqueIds ∧ sampleDoc 0 0 ∈ (sampleDb 0 0).files ∧
    sampleParse "64b7f1a2c3d4e5f601234567" = some (sampleDoc 0 0)._id ∧
    legalHeaderValue (sampleDoc 0 0).metadata.contentType = true ∧
    legalHeaderValue
      ("attachment; filename=\"" ++ (sampleDoc 0 0).metadata.originalname ++ "\"") = true ∧
    (getDownload sampleParse ⟨"64b7f1a2c3d4e5f601234567", 5, 5, calm⟩
        (sampleDb 0 0)).db.absent 1 ∧
    (sampleDoc 0 0).bump ∈
      (getDownload sampleParse ⟨"64b7f1a2c3d4e5f601234567", 5, 5, streamBreaks⟩
        (sampleDb 0 0)).db.files ∧
    (getDownload sampleParse ⟨"64b7f1a2c3d4e5f601234567", 5, 5, streamBreaks⟩
        (sampleDb 0 0)).response = .send 500 "Error downloading file." :=
  ⟨by decide, by decide, by decide, by decide, by decide,
   ((delete_follows_stream_end_only sampleParse ⟨"64b7f1a2c3d4e5f601234567", 5, 5, calm⟩
      (sampleDb 0 0) (sampleDoc 0 0) (by decide) (by decide) (by decide) (by decide)
      (by decide) (by decide) (by decide) (by decide)).2.2.1 rfl).2.2 rfl,
   ((delete_follows_stream_end_only sampleParse
      ⟨"64b7f1a2c3d4e5f601234567", 5, 5, streamBreaks⟩
      (sampleDb 0 0) (sampleDoc 0 0) (by decide) (by decide) (by decide) (by decide)
      (by decide) (by decide) (by decide) (by decide)).2.2.2 0 rfl).2.1,
   (((delete_follows_stream_end_only sampleParse
      ⟨"64b7f1a2c3d4e5f601234567", 5, 5, streamBreaks⟩
      (sampleDb 0 0) (sampleDoc 0 0) (by decide) (by decide) (by decide) (by decide)
      (by decide) (by decide) (by decide) (by decide)).2.2.2 0 rfl).2.2.2.2.1) (by decide)⟩

/-! ## Sweeps happen only inside requests -/

/-- After a sweep that lists the files of `db` older than `cutoff` and whose deletes all
succeed, a store whose documents all stem from `db` holds no document older than
`cutoff`. -/
theorem sweepDeletes_no_stale {fails : ObjectId → Bool} {cutoff : Int} {db X : Db}
    (hX : X.uniqueIds) (hok : ∀ x, fails x = false)
    (horigin : ∀ d ∈ X.files, ∃ d0 ∈ db.files, d0._id = d._id ∧
      d0.metadata.createdAt = d.metadata.createdAt) :
    ∀ d ∈ (sweepDeletes fails (findOlder cutoff db) X).files,
      ¬ d.metadata.createdAt < cutoff := by
  intro d hd hold
  rw [sweepDeletes_files _ _ _ hX] at hd
  obtain ⟨hdX, hkeep⟩ := List.mem_filter.1 hd
  obtain ⟨d0, hd0, hid, hc⟩ := horigin d hdX
  simp only [Bool.not_eq_true', List.any_eq_false, Bool.and_eq_true, decide_eq_true_eq,
    not_and, Bool.not_eq_false] at hkeep
  have := hkeep d0 (mem_findOlder.2 ⟨hd0, by omega⟩) hid
  rw [hok] at this
  cases this

theorem handlerBody_origin (parse : String → Option ObjectId) (rq : Request) (db : Db) :
    ∀ d ∈ (handlerBody parse rq db).db.files, ∃ d0 ∈ db.files, d0._id = d._id ∧
      d0.metadata.createdAt = d.metadata.createdAt := by
  intro d hd
  rcases handlerBody_files parse rq db d hd with h | ⟨d0, h1, h2, _⟩
  · exact ⟨d, h, rfl, rfl⟩
  · exact ⟨d0, h1, by simp [h2, FileDoc.bump], by simp [h2, FileDoc.bump]⟩

/-- Right after a download request whose sweep deletes all succeed, no file past
retention (at the sweep's clock reading) is left. -/
theorem getDownload_no_stale {parse : String → Option ObjectId} {rq : Request} {db : Db}
    (hu : db.uniqueIds) (hok : ∀ x, rq.env.sweepDeleteFails x = false) :
    ∀ d ∈ (getDownload parse rq db).db.files, rq.sweepNow - d.metadata.createdAt ≤ 1200000 := by
  intro d hd
  rw [getDownload_db] at hd
  by_cases hs : rq.env.sweepFirst = true
  · simp only [hs, if_true] at hd
    obtain ⟨d0, hd0, _, hc⟩ := handlerBody_origin parse rq _ d hd
    have hd0' : d0 ∈ (sweepDeletes rq.env.sweepDeleteFails
        (findOlder (rq.sweepNow - LINK_EXPIRY_MINUTES * 60 * 1000) db) db).files := by
      simpa [seenStore, hs] using hd0
    have := @sweepDeletes_no_stale _ _ db _ hu hok (fun x hx => ⟨x, hx, rfl, rfl⟩) d0 hd0'
    simp only [LINK_EXPIRY_MINUTES] at this
    omega
  · simp only [hs] at hd
    have hseen : seenStore rq db = db := by simp [seenStore, hs]
    rw [hseen] at hd
    have hX : (handlerBody parse rq db).db.uniqueIds :=
      List.Nodup.sublist (handlerBody_ids_sublist parse rq db) hu
    have := @sweepDeletes_no_stale _ _ db _ hX hok (handlerBody_origin parse rq db) d hd
    simp only [LINK_EXPIRY_MINUTES] at this
    omega

theorem postUpload_no_stale {toHex : ObjectId → String} {now : Int} {fails : ObjectId → Bool}
    {newId : ObjectId} {f : UploadedFile} {db : Db} (hu : db.uniqueIds)
    (hok : ∀ x, fails x = false) :
    ∀ d ∈ (postUpload toHex now now fails newId (some f) db).db.files,
      now - d.metadata.createdAt ≤ 1200000 := by
  intro d hd
  rw [postUpload_files, List.mem_append] at hd
  rcases hd with hd | hd
  · rw [cleanup_db] at hd
    have := @sweepDeletes_no_stale _ _ db _ hu hok (fun x hx => ⟨x, hx, rfl, rfl⟩) d hd
    omega
  · simp only [List.mem_singleton] at hd
    subst hd
    simp [uploadedDoc]

/-- Counterexample to claim C10: `index.js` sets no timer, the sweep runs only inside a
request. A file uploaded at clock reading 0 into an empty store is still in the catalog
and in the chunk store after 10^9 ms without any request; and whatever the sweep
interval, some trace reaches a state that holds a file older than retention plus that
interval. -/
theorem unswept_object_outlives_any_bound :
    ((Server.run sampleParse sampleHex Server.init
        [.upload 1 (some sampleFile) (fun _ => false), .advance 1000000000]).clock =
        1000000000 ∧
      (Server.run sampleParse sampleHex Server.init
        [.upload 1 (some sampleFile) (fun _ => false), .advance 1000000000]).db =
        sampleDb 0 0) ∧
    ¬ ∃ sweepInterval : Int, ∀ evs : List Event,
        ∀ d ∈ (Server.run sampleParse sampleHex Server.init evs).db.files,
          (Server.run sampleParse sampleHex Server.init evs).clock - d.metadata.createdAt ≤
            20 * 60 * 1000 + sweepInterval := by
  refine ⟨⟨by decide, by decide⟩, ?_⟩
  rintro ⟨I, h⟩
  have h0 : (Server.run sampleParse sampleHex Server.init
      [.upload 1 (some sampleFile) (fun _ => false), .advance (1200001 + I.toNat)]).db =
      (postUpload sampleHex 0 0 (fun _ => false) 1 (some sampleFile) ⟨[], []⟩).db := rfl
  have h1 := h [.upload 1 (some sampleFile) (fun _ => false), .advance (1200001 + I.toNat)]
    (sampleDoc 0 0) (by rw [h0]; decide)
  have h2 : (Server.run sampleParse sampleHex Server.init
      [.upload 1 (some sampleFile) (fun _ => false), .advance (1200001 + I.toNat)]).clock =
      ((1200001 + I.toNat : Nat) : Int) := by
    simp [Server.run, Server.step, Server.init]
  rw [h2] at h1
  have h3 := Int.self_le_toNat I
  simp only [sampleDoc] at h1
  push_cast at h1
  omega

/-- Claim C10, amended. The sweep has no interval of its own: it runs only as part of an
upload that carries a file and of a download request. While time merely passes, and on
an upload without a file, the store does not change, so an object can stay any length of
time past `createdAt + 20 min`. Right after a download request or an upload with a file,
handled at clock reading `now` with every sweep delete succeeding, no file with
`now - createdAt > 20 min` is left in the catalog. -/
theorem sweep_runs_only_with_requests (parse : String → Option ObjectId)
    (toHex : ObjectId → String) (s : Server) (hu : s.db.uniqueIds) :
    (∀ dt, (Server.step parse toHex s (.advance dt)).db = s.db) ∧
    (∀ newId fails, (Server.step parse toHex s (.upload newId none fails)).db = s.db) ∧
    (∀ id env, (∀ x, env.sweepDeleteFails x = false) →
      ∀ d ∈ (Server.step parse toHex s (.download id env)).db.files,
        s.clock - d.metadata.createdAt ≤ 20 * 60 * 1000) ∧
    (∀ newId f fails, (∀ x, fails x = false) →
      ∀ d ∈ (Server.step parse toHex s (.upload newId (some f) fails)).db.files,
        s.clock - d.metadata.createdAt ≤ 20 * 60 * 1000) := by
  simp only [show (20 * 60 * 1000 : Int) = 1200000 by norm_num]
  refine ⟨fun _ => rfl, fun _ _ => rfl, ?_, ?_⟩
  · intro id env hok d hd
    exact @getDownload_no_stale parse ⟨id, s.clock, s.clock, env⟩ _ hu hok d hd
  · intro newId f fails hok d hd
    exact @postUpload_no_stale toHex _ _ _ _ _ hu hok d hd

/-- Instance of `sweep_runs_only_with_requests`: a download request at `t = 21 min`
clears a file uploaded at `t = 0`, whatever id it asks for. -/
theorem sweep_runs_only_with_requests_witness :
    (sampleDb 0 0).uniqueIds ∧
    ∀ d ∈ (Server.step sampleParse sampleHex ⟨sampleDb 0 0, 1260000⟩
        (.download "not-an-id" calm)).db.files,
      (1260000 : Int) - d.metadata.createdAt ≤ 20 * 60 * 1000 :=
  ⟨by decide,
   (sweep_runs_only_with_requests sampleParse sampleHex ⟨sampleDb 0 0, 1260000⟩
      (by decide)).2.2.1 "not-an-id" calm (fun _ => rfl)⟩

/-! ## Interleaved requests, failing deletes -/

/-- Failing interleaving for claim C2. Two download requests for the same stored file
(tasks 1 and 3; tasks 0 and 2 are their sweeps, which find nothing to delete). Both
read the document before either increments it: after both increments the stored
`accessCount` is 2, both requests pass the gate, and both stream the whole payload.
(Run one after the other, the same two requests give one download and one rejection.) -/
theorem interleaved_downloads_are_both_admitted :
    (System.run sampleParse
        ⟨sampleDb 0 0, spawn [⟨"64b7f1a2c3d4e5f601234567", 5, 5, calm⟩,
                              ⟨"64b7f1a2c3d4e5f601234567", 5, 5, calm⟩]⟩
        [0, 1, 2, 3, 1, 3]).db = sampleDb 0 2 ∧
    (System.run sampleParse
        ⟨sampleDb 0 0, spawn [⟨"64b7f1a2c3d4e5f601234567", 5, 5, calm⟩,
                              ⟨"64b7f1a2c3d4e5f601234567", 5, 5, calm⟩]⟩
        [0, 1, 2, 3, 1, 3, 1, 3, 1, 3]).responses =
      [.stream "text/plain" "attachment; filename=\"a.txt\"" [104, 105, 10] false,
       .stream "text/plain" "attachment; filename=\"a.txt\"" [104, 105, 10] false] ∧
    (System.run sampleParse
        ⟨sampleDb 0 0, spawn [⟨"64b7f1a2c3d4e5f601234567", 5, 5, calm⟩,
                              ⟨"64b7f1a2c3d4e5f601234567", 5, 5, calm⟩]⟩
        [0, 1, 2, 3, 1, 3, 1, 3, 1, 3]).db = ⟨[], []⟩ ∧
    (System.run sampleParse
        ⟨sampleDb 0 0, spawn [⟨"64b7f1a2c3d4e5f601234567", 5, 5, calm⟩,
                              ⟨"64b7f1a2c3d4e5f601234567", 5, 5, calm⟩]⟩
        [0, 1, 1, 1, 1, 2, 3, 3, 3, 3]).responses =
      [.stream "text/plain" "attachment; filename=\"a.txt\"" [104, 105, 10] false,
       .send 200 "Link is invalid or expired."] := by
  decide

/-- Failing input for claim C8. The delete of the rejection branch (line 233) is awaited
outside any `try/catch`: when it rejects, the handler's promise rejects and the expired
text is never sent, for a consumed object as for one past retention. With the same
store and a delete that succeeds the text is sent. The delete of the `end` handler is
caught: whether it rejects or not, the response is the same. -/
theorem rejected_redemption_is_lost_when_delete_fails :
    (getDownload sampleParse ⟨"64b7f1a2c3d4e5f601234567", 5, 5, deleteRejects⟩
        (sampleDb 0 1)).response = .unhandled ∧
    (getDownload sampleParse ⟨"64b7f1a2c3d4e5f601234567", 5, 5, calm⟩
        (sampleDb 0 1)).response = .send 200 "The link has expired." ∧
    (getDownload sampleParse ⟨"64b7f1a2c3d4e5f601234567", 1260000, 1260000, deleteRejects⟩
        (sampleDb 0 0)).response = .unhandled ∧
    (getDownload sampleParse ⟨"64b7f1a2c3d4e5f601234567", 1260000, 1260000, calm⟩
        (sampleDb 0 0)).response = .send 200 "The link has expired." ∧
    (getDownload sampleParse ⟨"64b7f1a2c3d4e5f601234567", 5, 5, deleteRejects⟩
        (sampleDb 0 0)).response =
      (getDownload sampleParse ⟨"64b7f1a2c3d4e5f601234567", 5, 5, calm⟩
        (sampleDb 0 0)).response := by
  decide

/-! ## Header values -/

/-- Failing input for claim C1. A stored file whose name holds a character `res.setHeader`
refuses (U+65E5), unconsumed, requested one millisecond before the end of retention
(`createdAt + T - e` with `e = 1`). The gate lets the request pass and the count is
incremented, but line 243 throws: nothing is sent, no stream is opened, the link is
spent. The same request for the same bytes stored under the name `a.txt` is admitted
and streamed. -/
theorem gate_passed_but_header_refused :
    (kanjiDb 0).uniqueIds ∧
    (getDownload sampleParse ⟨"64b7f1a2c3d4e5f601234567", 1199999, 1199999, calm⟩
        (kanjiDb 0)).passedGate = true ∧
    (getDownload sampleParse ⟨"64b7f1a2c3d4e5f601234567", 1199999, 1199999, calm⟩
        (kanjiDb 0)).response = .unhandled ∧
    (getDownload sampleParse ⟨"64b7f1a2c3d4e5f601234567", 1199999, 1199999, calm⟩
        (kanjiDb 0)).response.admitted = false ∧
    (getDownload sampleParse ⟨"64b7f1a2c3d4e5f601234567", 1199999, 1199999, calm⟩
        (kanjiDb 0)).ops = [.find (-1), .findOne 1, .updateOne 1] ∧
    (getDownload sampleParse ⟨"64b7f1a2c3d4e5f601234567", 1199999, 1199999, calm⟩
        (kanjiDb 0)).db = kanjiDb 1 ∧
    (getDownload sampleParse ⟨"64b7f1a2c3d4e5f601234567", 1199999, 1199999, calm⟩
        (sampleDb 0 0)).response =
      .stream "text/plain" "attachment; filename=\"a.txt\"" [104, 105, 10] false := by
  decide

/-- Failing input for claim C9. Three bytes uploaded under the name `日.txt` and redeemed
five milliseconds later through the returned reference: the upload stores the file, the
download increments the count and then throws at line 243 because the
`Content-Disposition` value is not a legal header value. No byte is emitted, and the
next request for the reference is answered "The link has expired.". -/
theorem round_trip_lost_for_header_illegal_name :
    (postUpload sampleHex 0 0 (fun _ => false) 1 (some kanjiFile) ⟨[], []⟩).response =
      .linkPage "64b7f1a2c3d4e5f601234567" ∧
    (postUpload sampleHex 0 0 (fun _ => false) 1 (some kanjiFile) ⟨[], []⟩).db = kanjiDb 0 ∧
    legalHeaderValue ("attachment; filename=\"" ++ kanjiFile.originalname ++ "\"") = false ∧
    (getDownload sampleParse ⟨"64b7f1a2c3d4e5f601234567", 5, 5, calm⟩
        (postUpload sampleHex 0 0 (fun _ => false) 1 (some kanjiFile) ⟨[], []⟩).db).response =
      .unhandled ∧
    (getDownload sampleParse ⟨"64b7f1a2c3d4e5f601234567", 5, 5, calm⟩
        (postUpload sampleHex 0 0 (fun _ => false) 1 (some kanjiFile)
          ⟨[], []⟩).db).response.payload = [] ∧
    (getDownload sampleParse ⟨"64b7f1a2c3d4e5f601234567", 5, 5, calm⟩
        (postUpload sampleHex 0 0 (fun _ => false) 1 (some kanjiFile) ⟨[], []⟩).db).db =
      kanjiDb 1 ∧
    (getDownload sampleParse ⟨"64b7f1a2c3d4e5f601234567", 6, 6, calm⟩
        (kanjiDb 1)).response = .send 200 "The link has expired." := by
  decide

/-! ## Instances -/

/-- Instance of `sequential_downloads_admit_each_id_at_most_once`: two downloads of the
same file in a row. -/
theorem sequential_downloads_admit_each_id_at_most_once_witness :
    (sampleDb 0 0).uniqueIds ∧ (∀ d ∈ (sampleDb 0 0).files, d.metadata.accessCount ≤ 1) ∧
    ((runDownloads sampleParse
        [⟨"64b7f1a2c3d4e5f601234567", 5, 5, calm⟩, ⟨"64b7f1a2c3d4e5f601234567", 6, 6, calm⟩]
        (sampleDb 0 0)).filter (fun p =>
          decide (sampleParse p.1.id = some 1) && p.2.response.admitted)).length ≤ 1 :=
  ⟨by decide, by decide,
   (sequential_downloads_admit_each_id_at_most_once sampleParse
      [⟨"64b7f1a2c3d4e5f601234567", 5, 5, calm⟩, ⟨"64b7f1a2c3d4e5f601234567", 6, 6, calm⟩]
      (sampleDb 0 0) (by decide) (by decide)).2.1 1⟩

/-- Instance of `cleanupExpiredFiles_removes_exactly_expired`: a file created at `t = 0`
is gone after the sweep at `t = 21 min`. -/
theorem cleanupExpiredFiles_removes_exactly_expired_witness :
    (sampleDb 0 0).uniqueIds ∧
    (cleanupExpiredFiles true 1260000 (fun _ => false) (sampleDb 0 0)).1.absent 1 :=
  ⟨by decide,
   (cleanupExpiredFiles_removes_exactly_expired 1260000 (sampleDb 0 0) (by decide)).1
      (sampleDoc 0 0) (by decide) (by decide)⟩

/-- Instance of `round_trip_of_legal_headers`: three bytes uploaded into an empty store
under the name `a.txt` and redeemed five milliseconds later. -/
theorem round_trip_of_legal_headers_instance :
    (getDownload sampleParse ⟨sampleHex 1, 5, 5, calm⟩
        (postUpload sampleHex 0 0 (fun _ => false) 1
          (some ⟨"a.txt", "text/plain", [104, 105, 10]⟩) ⟨[], []⟩).db).response =
      .stream "text/plain" ("attachment; filename=\"" ++ "a.txt" ++ "\"") [104, 105, 10] false :=
  (round_trip_of_legal_headers sampleParse sampleHex [104, 105, 10] "text/plain" "a.txt" 1
      ⟨[], []⟩ 0 0 (fun _ => false) 5 5 calm (by decide) (by decide) (by decide) (by decide)
      (by decide) rfl (by decide) (by decide)).2.1

end TransFile
